import Mathlib

/-!
# Verification of the RocketTelemetry sensor-fusion core

Shallow embedding of `src/components/telemetry-advanced-visualization.tsx`
(the variant all claims cite).  The fusion filters compute with JavaScript
`number`s through `Math.atan2`, `Math.sqrt`, `Math.asin`, `Math.min`; we embed
them over `ℝ` (exact real arithmetic, with Lean's `x / 0 = 0` convention noted
wherever the source can divide by zero).  The batch-ingestion path
(`processData`) is purely decimal string processing, embedded executably over
`ℚ` with an explicit `Option` marker for JavaScript `NaN`/`undefined`.
A separate "poison" semantics (`Option ℝ`, `none` = NaN or ±Infinity) is used
where a claim is specifically about NaN/Infinity propagation, and a store
semantics (objects addressed by position in a heap list) where a claim is about
in-place mutation of shared sample objects.
-/

namespace RocketTelemetry

noncomputable section

open Real

/-- `Math.atan2 y x` (four-quadrant arctangent, range `(-π, π]`; real model,
no signed zeros: `atan2 0 x = π` for `x < 0`, `atan2 0 0 = 0`). -/
def atan2 (y x : ℝ) : ℝ :=
  if 0 < x then arctan (y / x)
  else if x < 0 ∧ 0 ≤ y then arctan (y / x) + π
  else if x < 0 ∧ y < 0 then arctan (y / x) - π
  else if x = 0 ∧ 0 < y then π / 2
  else if x = 0 ∧ y < 0 then -(π / 2)
  else 0

/-- `degrees * (Math.PI / 180)` — source helper `degToRad`. -/
def degToRad (degrees : ℝ) : ℝ := degrees * (π / 180)

/-- Closed form of the source loop `while (yaw > 180) yaw -= 360;`. -/
def wrapHigh (y : ℝ) : ℝ := if 180 < y then y - 360 * ⌈(y - 180) / 360⌉ else y

/-- Closed form of the source loop `while (yaw < -180) yaw += 360;`. -/
def wrapLow (y : ℝ) : ℝ := if y < -180 then y + 360 * ⌈(-180 - y) / 360⌉ else y

/-- The source's yaw (and Kalman angle) normalization: both `while` loops in
sequence. -/
def wrap180 (y : ℝ) : ℝ := wrapLow (wrapHigh y)

/-- One sensor sample (`SensorDataPoint` in the source).  `relativeTime` is
`Option`al because the source tests `!== undefined` before using it; the fused
fields are `Option`al because an un-fused sample does not carry them. -/
structure SensorDataPoint where
  timestamp : ℝ
  relativeTime : Option ℝ := none
  accelX : ℝ := 0
  accelY : ℝ := 0
  accelZ : ℝ := 0
  gyroX : ℝ := 0
  gyroY : ℝ := 0
  gyroZ : ℝ := 0
  altitude : ℝ := 0
  roll : Option ℝ := none
  pitch : Option ℝ := none
  yaw : Option ℝ := none
  compAccelX : Option ℝ := none
  compAccelY : Option ℝ := none
  compAccelZ : Option ℝ := none

/-- The `calculateDt` closure, defined identically inside all four filter
functions: relative-time difference when both sides carry one, else system
timestamp difference in seconds; `0.1` when there is no previous point. -/
def calculateDt (current : SensorDataPoint) (previous : Option SensorDataPoint) : ℝ :=
  match previous with
  | none => 0.1
  | some prev =>
    match current.relativeTime, prev.relativeTime with
    | some ct, some pt => ct - pt
    | _, _ => (current.timestamp - prev.timestamp) / 1000

/-- Generic online pass shared by all filters: fold a per-sample state update
over the list, each output sample annotated from the post-update state.  The
`Option SensorDataPoint` argument is the `prevPoint` of the source loops
(`null` at `i = 0`). -/
def runFrom {σ : Type} (upd : σ → Option SensorDataPoint → SensorDataPoint → σ)
    (emit : σ → SensorDataPoint → SensorDataPoint) :
    σ → Option SensorDataPoint → List SensorDataPoint → List SensorDataPoint
  | _, _, [] => []
  | st, prev, p :: rest =>
    let st' := upd st prev p
    emit st' p :: runFrom upd emit st' (some p) rest

/-- Running state trace of `runFrom`: the state after each sample's update. -/
def runStates {σ : Type} (upd : σ → Option SensorDataPoint → SensorDataPoint → σ) :
    σ → Option SensorDataPoint → List SensorDataPoint → List σ
  | _, _, [] => []
  | st, prev, p :: rest =>
    let st' := upd st prev p
    st' :: runStates upd st' (some p) rest

/-! ## Complementary filter (`applyComplementaryFilter`) -/

/-- Scalar state of the complementary filter. -/
structure CompState where
  roll : ℝ
  pitch : ℝ
  yaw : ℝ

/-- `accelRoll` as computed in every filter: `Math.atan2(ay, az) * 180/π`. -/
def accelRollOf (p : SensorDataPoint) : ℝ := atan2 p.accelY p.accelZ * (180 / π)

/-- `accelPitch`: `Math.atan2(-ax, sqrt(ay² + az²)) * 180/π`. -/
def accelPitchOf (p : SensorDataPoint) : ℝ :=
  atan2 (-p.accelX) (Real.sqrt (p.accelY * p.accelY + p.accelZ * p.accelZ)) * (180 / π)

/-- Initial complementary state: roll/pitch from the first accelerometer
reading, yaw 0 (source lines initializing from `data[0]`). -/
def compInit (firstPoint : SensorDataPoint) : CompState :=
  { roll := accelRollOf firstPoint, pitch := accelPitchOf firstPoint, yaw := 0 }

/-- The `i > 0` body of the complementary loop with the integration time step
`d` abstracted out (the source instantiates `d := min dt 0.5`). -/
def compStepWithDt (alpha : ℝ) (st : CompState) (p : SensorDataPoint) (d : ℝ) : CompState :=
  { roll := alpha * (st.roll + p.gyroX * d) + (1 - alpha) * accelRollOf p
    pitch := alpha * (st.pitch + p.gyroY * d) + (1 - alpha) * accelPitchOf p
    yaw := wrap180 (st.yaw + p.gyroZ * d) }

/-- Per-sample update of the complementary loop: no state change at `i = 0`
(`prevPoint === null`), otherwise the clamped-dt step. -/
def compUpd (alpha : ℝ) (st : CompState) (prev : Option SensorDataPoint)
    (p : SensorDataPoint) : CompState :=
  match prev with
  | none => st
  | some _ => compStepWithDt alpha st p (min (calculateDt p prev) 0.5)

/-- `result[i].roll = roll; result[i].pitch = pitch; result[i].yaw = yaw;` -/
def compEmit (st : CompState) (p : SensorDataPoint) : SensorDataPoint :=
  { p with roll := some st.roll, pitch := some st.pitch, yaw := some st.yaw }

/-- `applyComplementaryFilter(data, alpha = 0.98)`. -/
def applyComplementaryFilter (data : List SensorDataPoint) (alpha : ℝ := 0.98) :
    List SensorDataPoint :=
  match data with
  | [] => []
  | firstPoint :: _ => runFrom (compUpd alpha) compEmit (compInit firstPoint) none data

/-! ## Center-of-mass compensation and the improved complementary filter -/

/-- 3-vector result of `compensateAcceleration`. -/
structure Accel3 where
  x : ℝ
  y : ℝ
  z : ℝ

/-- `compensateAcceleration`: `a_cm = a_imu - (ω × (ω × r) + α × r)`, with both
cross products written out exactly as in the source. -/
def compensateAcceleration (accelX accelY accelZ gyroX gyroY gyroZ
    angAccelX angAccelY angAccelZ : ℝ) (sensorPosition : ℝ × ℝ × ℝ) : Accel3 :=
  let rx := sensorPosition.1
  let ry := sensorPosition.2.1
  let rz := sensorPosition.2.2
  let wxr_x := gyroY * rz - gyroZ * ry
  let wxr_y := gyroZ * rx - gyroX * rz
  let wxr_z := gyroX * ry - gyroY * rx
  let centripetal_x := gyroY * wxr_z - gyroZ * wxr_y
  let centripetal_y := gyroZ * wxr_x - gyroX * wxr_z
  let centripetal_z := gyroX * wxr_y - gyroY * wxr_x
  let tangential_x := angAccelY * rz - angAccelZ * ry
  let tangential_y := angAccelZ * rx - angAccelX * rz
  let tangential_z := angAccelX * ry - angAccelY * rx
  { x := accelX - (centripetal_x + tangential_x)
    y := accelY - (centripetal_y + tangential_y)
    z := accelZ - (centripetal_z + tangential_z) }

/-- `sensorPositionVector = [0, 0, 0.030]` (30 mm along the longitudinal
axis). -/
def sensorPositionVector : ℝ × ℝ × ℝ := (0, 0, 0.030)

/-- State of the improved complementary filter: the angles plus the previous
gyro reading (for the finite-difference angular acceleration) and the last
compensated acceleration (stored on each output sample). -/
structure ImpState where
  roll : ℝ
  pitch : ℝ
  yaw : ℝ
  prevGyroX : ℝ
  prevGyroY : ℝ
  prevGyroZ : ℝ
  compAccel : Accel3

/-- Initial state of the improved filter: the first accelerometer reading is
compensated with zero angular velocity/acceleration, then roll/pitch derived
from it; `prevGyro` caches the first gyro reading. -/
def impInit (firstPoint : SensorDataPoint) : ImpState :=
  let initialAccel := compensateAcceleration firstPoint.accelX firstPoint.accelY
      firstPoint.accelZ 0 0 0 0 0 0 sensorPositionVector
  { roll := atan2 initialAccel.y initialAccel.z * (180 / π)
    pitch := atan2 (-initialAccel.x)
        (Real.sqrt (initialAccel.y * initialAccel.y + initialAccel.z * initialAccel.z)) *
        (180 / π)
    yaw := 0
    prevGyroX := firstPoint.gyroX
    prevGyroY := firstPoint.gyroY
    prevGyroZ := firstPoint.gyroZ
    compAccel := initialAccel }

/-- Loop body of the improved filter with the integration step `d` abstracted
out (the source instantiates `d := min dt 0.5`; the angular-acceleration finite
difference divides by the raw, unclamped `dt`, which is a separate argument).
Note the real-model convention `x / 0 = 0` where the source would produce
±Infinity/NaN; the NaN behavior is treated in the poison semantics below. -/
def impStepWithDt (alpha : ℝ) (st : ImpState) (prev : Option SensorDataPoint)
    (p : SensorDataPoint) (dt d : ℝ) : ImpState :=
  let angAccelX := (p.gyroX - st.prevGyroX) / dt
  let angAccelY := (p.gyroY - st.prevGyroY) / dt
  let angAccelZ := (p.gyroZ - st.prevGyroZ) / dt
  let compensatedAccel := compensateAcceleration p.accelX p.accelY p.accelZ
      p.gyroX p.gyroY p.gyroZ angAccelX angAccelY angAccelZ sensorPositionVector
  let accelRoll := atan2 compensatedAccel.y compensatedAccel.z * (180 / π)
  let accelPitch := atan2 (-compensatedAccel.x)
      (Real.sqrt (compensatedAccel.y * compensatedAccel.y +
        compensatedAccel.z * compensatedAccel.z)) * (180 / π)
  let updated : ℝ × ℝ × ℝ :=
    match prev with
    | none => (st.roll, st.pitch, st.yaw)
    | some _ =>
      (alpha * (st.roll + p.gyroX * d) + (1 - alpha) * accelRoll,
       alpha * (st.pitch + p.gyroY * d) + (1 - alpha) * accelPitch,
       wrap180 (st.yaw + p.gyroZ * d))
  { roll := updated.1, pitch := updated.2.1, yaw := updated.2.2
    prevGyroX := p.gyroX, prevGyroY := p.gyroY, prevGyroZ := p.gyroZ
    compAccel := compensatedAccel }

/-- Per-sample update of the improved complementary loop. -/
def impUpd (alpha : ℝ) (st : ImpState) (prev : Option SensorDataPoint)
    (p : SensorDataPoint) : ImpState :=
  impStepWithDt alpha st prev p (calculateDt p prev) (min (calculateDt p prev) 0.5)

/-- The improved filter stores the angles and the compensated acceleration on
each output sample. -/
def impEmit (st : ImpState) (p : SensorDataPoint) : SensorDataPoint :=
  { p with roll := some st.roll, pitch := some st.pitch, yaw := some st.yaw
           compAccelX := some st.compAccel.x, compAccelY := some st.compAccel.y
           compAccelZ := some st.compAccel.z }

/-- `applyImprovedComplementaryFilter(data, alpha = 0.98)`. -/
def applyImprovedComplementaryFilter (data : List SensorDataPoint) (alpha : ℝ := 0.98) :
    List SensorDataPoint :=
  match data with
  | [] => []
  | firstPoint :: _ => runFrom (impUpd alpha) impEmit (impInit firstPoint) none data

/-! ## Linear-algebra kernel (6×6) and Kalman filter -/

/-- `multiplyMatrixVector`. -/
def multiplyMatrixVector (A : Matrix (Fin 6) (Fin 6) ℝ) (v : Fin 6 → ℝ) : Fin 6 → ℝ :=
  fun i => ∑ j, A i j * v j

/-- `multiplyMatrices`. -/
def multiplyMatrices (A B : Matrix (Fin 6) (Fin 6) ℝ) : Matrix (Fin 6) (Fin 6) ℝ :=
  fun i j => ∑ k, A i k * B k j

/-- `transposeMatrix`. -/
def transposeMatrix (A : Matrix (Fin 6) (Fin 6) ℝ) : Matrix (Fin 6) (Fin 6) ℝ :=
  fun i j => A j i

/-- `addMatrices`. -/
def addMatrices (A B : Matrix (Fin 6) (Fin 6) ℝ) : Matrix (Fin 6) (Fin 6) ℝ :=
  fun i j => A i j + B i j

/-- `subtractMatrices`. -/
def subtractMatrices (A B : Matrix (Fin 6) (Fin 6) ℝ) : Matrix (Fin 6) (Fin 6) ℝ :=
  fun i j => A i j - B i j

/-- `invertMatrix` — the source's diagonal-only inverse: `1 / A[i][i]` on the
diagonal, `0` elsewhere. -/
def invertMatrix (A : Matrix (Fin 6) (Fin 6) ℝ) : Matrix (Fin 6) (Fin 6) ℝ :=
  fun i j => if i = j then 1.0 / A i i else 0

/-- Kalman running state: 6-vector estimate and 6×6 covariance. -/
structure KState where
  x : Fin 6 → ℝ
  P : Matrix (Fin 6) (Fin 6) ℝ

/-- Process noise `Q = diagonal(0.01)`. -/
def Qmat : Matrix (Fin 6) (Fin 6) ℝ := fun i j => if i = j then 0.01 else 0

/-- Measurement noise `R`: `0.1` on the three angle rows, `0.01` on the three
rate rows. -/
def Rmat : Matrix (Fin 6) (Fin 6) ℝ :=
  fun i j => if i = j then (if (i : ℕ) < 3 then 0.1 else 0.01) else 0

/-- Observation matrix `H` = identity. -/
def Hmat : Matrix (Fin 6) (Fin 6) ℝ := fun i j => if i = j then 1 else 0

/-- Initial covariance: `1000` for the angle states, `100` for the rates. -/
def Pinit : Matrix (Fin 6) (Fin 6) ℝ :=
  fun i j => if i = j then (if (i : ℕ) < 3 then 1000 else 100) else 0

/-- Transition matrix `F`: identity plus `F[0][3] = F[1][4] = F[2][5] = dt`
(only those three off-diagonal entries are ever written). -/
def Fmat (d : ℝ) : Matrix (Fin 6) (Fin 6) ℝ :=
  fun i j =>
    if i = j then 1
    else if i = 0 ∧ j = 3 then d
    else if i = 1 ∧ j = 4 then d
    else if i = 2 ∧ j = 5 then d
    else 0

/-- Initial Kalman state: roll/pitch from the accelerometer, yaw 0, rates from
the first gyro reading; `P` as `Pinit`. -/
def kalmanInit (firstPoint : SensorDataPoint) : KState :=
  { x := ![accelRollOf firstPoint, accelPitchOf firstPoint, 0,
           firstPoint.gyroX, firstPoint.gyroY, firstPoint.gyroZ]
    P := Pinit }

/-- One Kalman predict/update cycle with the time step `d` abstracted out (the
source instantiates `d := min dt 0.5`): prediction, measurement vector `z`,
innovation, diagonal-only-inverted innovation covariance, gain, state and
covariance update, then wrapping of the three angle states into `[-180, 180]`. -/
def kalmanStepWithDt (st : KState) (p : SensorDataPoint) (d : ℝ) : KState :=
  let F := Fmat d
  let x_pred := multiplyMatrixVector F st.x
  let P_pred := addMatrices (multiplyMatrices (multiplyMatrices F st.P) (transposeMatrix F)) Qmat
  let z : Fin 6 → ℝ :=
    ![accelRollOf p, accelPitchOf p, x_pred 2 + p.gyroZ * d, p.gyroX, p.gyroY, p.gyroZ]
  let Hx := multiplyMatrixVector Hmat x_pred
  let y := fun i => z i - Hx i
  let S := addMatrices (multiplyMatrices (multiplyMatrices Hmat P_pred) (transposeMatrix Hmat)) Rmat
  let S_inv := invertMatrix S
  let K := multiplyMatrices (multiplyMatrices P_pred (transposeMatrix Hmat)) S_inv
  let Ky := multiplyMatrixVector K y
  let x_upd := fun i => x_pred i + Ky i
  let I : Matrix (Fin 6) (Fin 6) ℝ := fun i j => if i = j then 1 else 0
  let P_upd := multiplyMatrices (subtractMatrices I (multiplyMatrices K Hmat)) P_pred
  { x := fun i => if (i : ℕ) < 3 then wrap180 (x_upd i) else x_upd i
    P := P_upd }

/-- Per-sample Kalman update: the source loop starts at `i = 1`, so nothing
happens on the first sample. -/
def kalmanUpd (st : KState) (prev : Option SensorDataPoint) (p : SensorDataPoint) : KState :=
  match prev with
  | none => st
  | some _ => kalmanStepWithDt st p (min (calculateDt p prev) 0.5)

/-- `result[i].roll = x[0]; ... pitch = x[1]; ... yaw = x[2];` -/
def kalmanEmit (st : KState) (p : SensorDataPoint) : SensorDataPoint :=
  { p with roll := some (st.x 0), pitch := some (st.x 1), yaw := some (st.x 2) }

/-- `applyKalmanFilter(data)`. -/
def applyKalmanFilter (data : List SensorDataPoint) : List SensorDataPoint :=
  match data with
  | [] => []
  | firstPoint :: _ => runFrom kalmanUpd kalmanEmit (kalmanInit firstPoint) none data

/-! ## Madgwick filter -/

/-- Quaternion state `[w, x, y, z]` (`q0..q3` in the source). -/
structure Quat where
  q0 : ℝ
  q1 : ℝ
  q2 : ℝ
  q3 : ℝ

/-- Squared norm of the quaternion state. -/
def Quat.normSq (q : Quat) : ℝ := q.q0 * q.q0 + q.q1 * q.q1 + q.q2 * q.q2 + q.q3 * q.q3

/-- One Madgwick update with the integration step `d` abstracted out (the
source instantiates `d := min dt 0.5`, including at `i = 0` where `dt = 0.1`):
gyro deg/s→rad/s, accelerometer normalization, objective-function gradient,
gradient normalization, quaternion derivative, Euler integration,
re-normalization.  Real model: the source's `x / 0` (zero accelerometer norm or
zero gradient) is Lean's junk value `0` here; IEEE NaN behavior is treated in
the poison semantics below. -/
def madgwickStepWithDt (beta : ℝ) (q : Quat) (p : SensorDataPoint) (d : ℝ) : Quat :=
  let gx := degToRad p.gyroX
  let gy := degToRad p.gyroY
  let gz := degToRad p.gyroZ
  let ax := p.accelX
  let ay := p.accelY
  let az := p.accelZ
  let norm := Real.sqrt (ax * ax + ay * ay + az * az)
  let ax_norm := ax / norm
  let ay_norm := ay / norm
  let az_norm := az / norm
  let _2q0 := 2.0 * q.q0
  let _2q1 := 2.0 * q.q1
  let _2q2 := 2.0 * q.q2
  let _2q3 := 2.0 * q.q3
  let _4q0 := 4.0 * q.q0
  let _4q1 := 4.0 * q.q1
  let _4q2 := 4.0 * q.q2
  let _8q1 := 8.0 * q.q1
  let _8q2 := 8.0 * q.q2
  let q0q0 := q.q0 * q.q0
  let q1q1 := q.q1 * q.q1
  let q2q2 := q.q2 * q.q2
  let q3q3 := q.q3 * q.q3
  let s0 := _4q0 * q2q2 + _2q2 * ax_norm + _4q0 * q1q1 - _2q1 * ay_norm
  let s1 := _4q1 * q3q3 - _2q3 * ax_norm + 4.0 * q0q0 * q.q1 - _2q0 * ay_norm - _4q1 +
      _8q1 * q1q1 + _8q1 * q2q2 + _4q1 * az_norm
  let s2 := 4.0 * q0q0 * q.q2 + _2q0 * ax_norm + _4q2 * q3q3 - _2q3 * ay_norm - _4q2 +
      _8q2 * q1q1 + _8q2 * q2q2 + _4q2 * az_norm
  let s3 := 4.0 * q1q1 * q.q3 - _2q1 * ax_norm + 4.0 * q2q2 * q.q3 - _2q2 * ay_norm
  let recipNorm := 1.0 / Real.sqrt (s0 * s0 + s1 * s1 + s2 * s2 + s3 * s3)
  let s0_norm := s0 * recipNorm
  let s1_norm := s1 * recipNorm
  let s2_norm := s2 * recipNorm
  let s3_norm := s3 * recipNorm
  let qDot0 := 0.5 * (-q.q1 * gx - q.q2 * gy - q.q3 * gz) - beta * s0_norm
  let qDot1 := 0.5 * (q.q0 * gx + q.q2 * gz - q.q3 * gy) - beta * s1_norm
  let qDot2 := 0.5 * (q.q0 * gy - q.q1 * gz + q.q3 * gx) - beta * s2_norm
  let qDot3 := 0.5 * (q.q0 * gz + q.q1 * gy - q.q2 * gx) - beta * s3_norm
  let r0 := q.q0 + qDot0 * d
  let r1 := q.q1 + qDot1 * d
  let r2 := q.q2 + qDot2 * d
  let r3 := q.q3 + qDot3 * d
  let recipNorm2 := 1.0 / Real.sqrt (r0 * r0 + r1 * r1 + r2 * r2 + r3 * r3)
  { q0 := r0 * recipNorm2, q1 := r1 * recipNorm2
    q2 := r2 * recipNorm2, q3 := r3 * recipNorm2 }

/-- Per-sample Madgwick update (the update runs at every index, including
`i = 0`, where `calculateDt` defaults to `0.1`). -/
def madgwickUpd (beta : ℝ) (q : Quat) (prev : Option SensorDataPoint)
    (p : SensorDataPoint) : Quat :=
  madgwickStepWithDt beta q p (min (calculateDt p prev) 0.5)

/-- Quaternion-to-Euler conversion as in the source: roll by `atan2`, pitch by
`asin` with the `|sinp| >= 1` gimbal-lock branch, yaw by `atan2` followed by
the wrap loops. -/
def madgwickEuler (q : Quat) : ℝ × ℝ × ℝ :=
  let sinr_cosp := 2.0 * (q.q0 * q.q1 + q.q2 * q.q3)
  let cosr_cosp := 1.0 - 2.0 * (q.q1 * q.q1 + q.q2 * q.q2)
  let roll := atan2 sinr_cosp cosr_cosp * (180.0 / π)
  let sinp := 2.0 * (q.q0 * q.q2 - q.q3 * q.q1)
  let pitch := if 1 ≤ |sinp| then Real.sign sinp * 90.0 else Real.arcsin sinp * (180.0 / π)
  let siny_cosp := 2.0 * (q.q0 * q.q3 + q.q1 * q.q2)
  let cosy_cosp := 1.0 - 2.0 * (q.q2 * q.q2 + q.q3 * q.q3)
  let yaw := wrap180 (atan2 siny_cosp cosy_cosp * (180.0 / π))
  (roll, pitch, yaw)

/-- Madgwick output annotation from the post-update quaternion. -/
def madgwickEmit (q : Quat) (p : SensorDataPoint) : SensorDataPoint :=
  let e := madgwickEuler q
  { p with roll := some e.1, pitch := some e.2.1, yaw := some e.2.2 }

/-- The identity quaternion `[1, 0, 0, 0]`. -/
def quatId : Quat := { q0 := 1, q1 := 0, q2 := 0, q3 := 0 }

/-- `applyMadgwickFilter(data, beta = 0.1)`. -/
def applyMadgwickFilter (data : List SensorDataPoint) (beta : ℝ := 0.1) :
    List SensorDataPoint :=
  match data with
  | [] => []
  | _ :: _ => runFrom (madgwickUpd beta) madgwickEmit quatId none data

/-- Quaternion state trace of a Madgwick run (state after each sample's
update) — the object C8 speaks about. -/
def madgwickStates (data : List SensorDataPoint) (beta : ℝ := 0.1) : List Quat :=
  runStates (madgwickUpd beta) quatId none data

end

/-! ## Batch ingestion (`processData`)

Executable model over exact rationals.  A JavaScript number that is `NaN` (and
a property read that yields `undefined` and then flows into arithmetic, which
JavaScript also turns into `NaN`) is modelled as `none`.  A thrown `TypeError`
(property/method access on `undefined`, e.g. `values[index].replace` when the
row is short, or `parsedData[0].timestamp` when there are no data rows) is the
`Except` error case: the function returns nothing at all. -/

/-- The only failure the source can actually produce: an uncaught JavaScript
`TypeError` from a property access on `undefined`. -/
inductive JsError where
  | typeError
  deriving DecidableEq, Repr

instance {ε α : Type} [DecidableEq ε] [DecidableEq α] : DecidableEq (Except ε α)
  | .ok a, .ok b =>
    if h : a = b then .isTrue (by rw [h]) else .isFalse (fun hh => by cases hh; exact h rfl)
  | .ok _, .error _ => .isFalse (fun hh => by cases hh)
  | .error _, .ok _ => .isFalse (fun hh => by cases hh)
  | .error e, .error f =>
    if h : e = f then .isTrue (by rw [h]) else .isFalse (fun hh => by cases hh; exact h rfl)

/-- JavaScript number: `none` is `NaN`. -/
abbrev JSNum := Option ℚ

/-- JavaScript `String.prototype.split` with a single-character separator,
modelled structurally over the character list: split at every occurrence,
keep empty pieces (`"a,,b"` → `["a", "", "b"]`, `""` → `[""]`). -/
def splitChar (c : Char) : List Char → List Char → List String
  | [], acc => [String.mk acc.reverse]
  | x :: xs, acc =>
    if x = c then String.mk acc.reverse :: splitChar c xs []
    else splitChar c xs (x :: acc)

/-- `s.split(c)` on a string. -/
def splitStr (s : String) (c : Char) : List String := splitChar c s.data []

/-- JavaScript `String.prototype.trim`: strip whitespace from both ends. -/
def trimStr (s : String) : String :=
  ⟨((s.data.dropWhile Char.isWhitespace).reverse.dropWhile Char.isWhitespace).reverse⟩

/-- NaN-propagating addition. -/
def jsAdd (a b : JSNum) : JSNum := match a, b with
  | some x, some y => some (x + y)
  | _, _ => none

/-- NaN-propagating subtraction. -/
def jsSub (a b : JSNum) : JSNum := match a, b with
  | some x, some y => some (x - y)
  | _, _ => none

/-- NaN-propagating negation (`-point.accelZ`). -/
def jsNeg (a : JSNum) : JSNum := a.map (fun x => -x)

/-- `x > 0` in JavaScript: false when `x` is `NaN`. -/
def jsGtZero (a : JSNum) : Bool := match a with
  | some x => decide (0 < x)
  | none => false

/-- A parsed row object: assoc list keyed by header name (`rowData` in the
source); a missing key is JavaScript `undefined`, which behaves as `NaN` once
it reaches arithmetic, so `getField` collapses both into `none`. -/
abbrev RowObj := List (String × JSNum)

/-- Property read `row[k]`. -/
def getField (r : RowObj) (k : String) : JSNum := (r.lookup k).join

/-- Property write `row[k] = v` (overwrites an existing key, else appends). -/
def setField : RowObj → String → JSNum → RowObj
  | [], k, v => [(k, v)]
  | (k', v') :: rest, k, v =>
    if k' = k then (k, v) :: rest else (k', v') :: setField rest k v

/-- Numeric value of a digit run. -/
def digitsToNat (l : List Char) : ℕ :=
  l.foldl (fun a c => 10 * a + (c.toNat - '0'.toNat)) 0

/-- Model of JavaScript `parseInt(s)` (radix 10): skip whitespace, optional
sign, longest leading digit run; `NaN` when no digit is found.  (The `0x`
prefix form never occurs in telemetry files and is not modelled.) -/
def parseIntJS (s : String) : JSNum :=
  let cs := (trimStr s).data
  let signed : ℚ × List Char :=
    match cs with
    | '-' :: r => (-1, r)
    | '+' :: r => (1, r)
    | r => (1, r)
  let digits := signed.2.takeWhile Char.isDigit
  if digits.isEmpty then none else some (signed.1 * digitsToNat digits)

/-- Model of JavaScript `parseFloat(s)`: skip whitespace, optional sign,
longest valid decimal prefix `digits [. digits] [e|E [sign] digits]`; `NaN`
when no digit appears before or after the decimal point.  (The `Infinity`
literal never occurs in telemetry files and is not modelled.) -/
def parseFloatJS (s : String) : JSNum :=
  let cs := (trimStr s).data
  let signed : ℚ × List Char :=
    match cs with
    | '-' :: r => (-1, r)
    | '+' :: r => (1, r)
    | r => (1, r)
  let ip := signed.2.takeWhile Char.isDigit
  let r1 := signed.2.dropWhile Char.isDigit
  let fp : List Char :=
    match r1 with
    | '.' :: t => t.takeWhile Char.isDigit
    | _ => []
  let r2 : List Char :=
    match r1 with
    | '.' :: t => t.dropWhile Char.isDigit
    | _ => r1
  if ip.isEmpty ∧ fp.isEmpty then none
  else
    let mantissa : ℚ := (digitsToNat ip : ℚ) + (digitsToNat fp : ℚ) / (10 : ℚ) ^ fp.length
    let expPart : ℤ :=
      match r2 with
      | 'e' :: t | 'E' :: t =>
        let esigned : ℤ × List Char :=
          match t with
          | '-' :: u => (-1, u)
          | '+' :: u => (1, u)
          | u => (1, u)
        let ed := esigned.2.takeWhile Char.isDigit
        if ed.isEmpty then 0 else esigned.1 * (digitsToNat ed : ℤ)
      | _ => 0
    some (signed.1 * mantissa * (10 : ℚ) ^ expPart)

/-- `s.replace(',', '.')` — JavaScript `String.prototype.replace` with a string
pattern replaces only the FIRST occurrence. -/
def replaceFirstComma (s : String) : String :=
  let rec go : List Char → List Char
    | [] => []
    | c :: rest => if c = ',' then '.' :: rest else c :: go rest
  ⟨go s.data⟩

/-- The `headers.forEach((header, index) => ...)` row builder: index 0 goes
through `parseInt`, the rest through `parseFloat` after comma normalization; a
missing field at index > 0 throws (`values[index].replace` on `undefined`),
while `parseInt` of a missing index-0 field is just `NaN`. -/
def buildRow (values : List String) : List String → ℕ → RowObj → Except JsError RowObj
  | [], _, obj => .ok obj
  | header :: hs, i, obj =>
    if i = 0 then
      buildRow values hs (i + 1) (setField obj header ((values.get? 0).bind parseIntJS))
    else
      match values.get? i with
      | none => .error .typeError
      | some s => buildRow values hs (i + 1) (setField obj header (parseFloatJS (replaceFirstComma s)))

/-- One data row: split on tabs, then build the row object against the header
list. -/
def parseRow (headers : List String) (row : String) : Except JsError RowObj :=
  buildRow (splitStr row '\t') headers 0 []

/-- The two stages of `processData` that precede the Z-axis correction:
line/tab splitting, per-row parsing, and the `relativeTime` computation.
Throws (`Except.error`) when there is no non-blank line at all
(`rows[0].split` on `undefined`) or no data row (`parsedData[0].timestamp` on
`undefined`). -/
def parsePhase (fileContent : String) : Except JsError (List RowObj) := do
  let rows := (splitStr fileContent '\n').filter (fun r => 0 < (trimStr r).length)
  match rows with
  | [] => .error .typeError
  | headerRow :: dataRows =>
    let headers := (splitStr headerRow '\t').map trimStr
    let parsedData ← dataRows.mapM (parseRow headers)
    match parsedData with
    | [] => .error .typeError
    | first :: _ =>
      let startTime := getField first "timestamp"
      .ok (parsedData.map (fun row =>
        setField row "relativeTime" ((jsSub (getField row "timestamp") startTime).map (· / 1000))))

/-- Mean `accelZ` of the first `min(20, N)` samples (`NaN`-propagating; with
zero samples the source computes `0 / 0`, i.e. `NaN`). -/
def avgAccelZ (parsedData : List RowObj) : JSNum :=
  let samplesToCheck := min 20 parsedData.length
  let total := (parsedData.take samplesToCheck).foldl (fun a r => jsAdd a (getField r "accelZ")) (some 0)
  if samplesToCheck = 0 then none else total.map (· / samplesToCheck)

/-- CORREZIONE 1 — the Z-axis auto-correction: when the mean `accelZ` of the
first `min(20, N)` samples is positive, negate `accelZ` on every sample. -/
def zCorrect (parsedData : List RowObj) : List RowObj :=
  if jsGtZero (avgAccelZ parsedData) then
    parsedData.map (fun r => setField r "accelZ" (jsNeg (getField r "accelZ")))
  else parsedData

/-- `processData(fileContent)`: parsing, `relativeTime`, Z-axis correction.
(The trailing `setData`/filter-application calls are view updates outside the
ingestion contract.) -/
def processData (fileContent : String) : Except JsError (List RowObj) :=
  (parsePhase fileContent).map zCorrect

/-! ## Poison (IEEE NaN/Infinity) semantics

The real-valued embedding above uses Lean's `x / 0 = 0`; JavaScript instead
produces `NaN` or `±Infinity`, which then contaminates every later arithmetic
step.  For the claims that are specifically about that contamination we re-run
the two affected code paths under a semantics where `none` means
"NaN or ±Infinity": every arithmetic operation propagates `none`, and division
returns `none` when the divisor is zero (finite/0 = ±Infinity, 0/0 = NaN —
both poison), as does `sqrt` of a negative.  On the trajectories used below no
IEEE infinity ever flows back to a finite value, so the collapse is exact. -/

noncomputable section

open Real

/-- Poisoned JavaScript number: `none` = NaN or ±Infinity. -/
abbrev JR := Option ℝ

/-- Poison addition. -/
def pAdd (a b : JR) : JR := match a, b with
  | some x, some y => some (x + y)
  | _, _ => none

/-- Poison subtraction. -/
def pSub (a b : JR) : JR := match a, b with
  | some x, some y => some (x - y)
  | _, _ => none

/-- Poison multiplication. -/
def pMul (a b : JR) : JR := match a, b with
  | some x, some y => some (x * y)
  | _, _ => none

/-- Poison negation. -/
def pNeg (a : JR) : JR := a.map (fun x => -x)

/-- Poison division: a zero divisor yields ±Infinity or NaN. -/
def pDiv (a b : JR) : JR := match a, b with
  | some x, some y => if y = 0 then none else some (x / y)
  | _, _ => none

/-- Poison `Math.sqrt` (negative argument yields NaN). -/
def pSqrt (a : JR) : JR := match a with
  | some x => if x < 0 then none else some (Real.sqrt x)
  | none => none

/-- Poison `Math.atan2` (on the trajectories below its poisoned inputs are
NaN, never ±Infinity, and `atan2` of NaN is NaN). -/
def pAtan2 (y x : JR) : JR := match y, x with
  | some yv, some xv => some (atan2 yv xv)
  | _, _ => none

/-- Poison pitch conversion: `Math.abs(NaN) >= 1` is false and `asin(NaN)` is
NaN. -/
def pPitch (sinp : JR) : JR := match sinp with
  | some x => if 1 ≤ |x| then some (Real.sign x * 90.0) else some (Real.arcsin x * (180.0 / π))
  | none => none

/-- Poison yaw wrap: both `while` loops compare against NaN, which is false,
so NaN passes through unchanged. -/
def pWrap (y : JR) : JR := y.map wrap180

@[simp] theorem pAdd_none_right (a : JR) : pAdd a none = none := by cases a <;> rfl
@[simp] theorem pAdd_none_left (a : JR) : pAdd none a = none := rfl
@[simp] theorem pSub_none_right (a : JR) : pSub a none = none := by cases a <;> rfl
@[simp] theorem pSub_none_left (a : JR) : pSub none a = none := rfl
@[simp] theorem pMul_none_right (a : JR) : pMul a none = none := by cases a <;> rfl
@[simp] theorem pMul_none_left (a : JR) : pMul none a = none := rfl
@[simp] theorem pDiv_none_right (a : JR) : pDiv a none = none := by cases a <;> rfl
@[simp] theorem pDiv_none_left (a : JR) : pDiv none a = none := rfl
@[simp] theorem pAdd_some (x y : ℝ) : pAdd (some x) (some y) = some (x + y) := rfl
@[simp] theorem pSub_some (x y : ℝ) : pSub (some x) (some y) = some (x - y) := rfl
@[simp] theorem pMul_some (x y : ℝ) : pMul (some x) (some y) = some (x * y) := rfl
@[simp] theorem pAtan2_none_left (x : JR) : pAtan2 none x = none := rfl
@[simp] theorem pAtan2_none_right (y : JR) : pAtan2 y none = none := by cases y <;> rfl

/-- Poisoned Madgwick quaternion state. -/
structure PQuat where
  q0 : JR
  q1 : JR
  q2 : JR
  q3 : JR

/-- The identity quaternion, unpoisoned. -/
def pQuatId : PQuat := { q0 := some 1, q1 := some 0, q2 := some 0, q3 := some 0 }

/-- `madgwickStepWithDt` under poison semantics (`d` and the gyro conversion
stay exact: they never touch a division by zero on these paths). -/
def pMadgwickStep (beta : ℝ) (q : PQuat) (p : SensorDataPoint) (d : ℝ) : PQuat :=
  let gx := degToRad p.gyroX
  let gy := degToRad p.gyroY
  let gz := degToRad p.gyroZ
  let norm := pSqrt (some (p.accelX * p.accelX + p.accelY * p.accelY + p.accelZ * p.accelZ))
  let ax_norm := pDiv (some p.accelX) norm
  let ay_norm := pDiv (some p.accelY) norm
  let az_norm := pDiv (some p.accelZ) norm
  let _2q0 := pMul (some 2.0) q.q0
  let _2q1 := pMul (some 2.0) q.q1
  let _2q2 := pMul (some 2.0) q.q2
  let _2q3 := pMul (some 2.0) q.q3
  let _4q0 := pMul (some 4.0) q.q0
  let _4q1 := pMul (some 4.0) q.q1
  let _4q2 := pMul (some 4.0) q.q2
  let _8q1 := pMul (some 8.0) q.q1
  let _8q2 := pMul (some 8.0) q.q2
  let q0q0 := pMul q.q0 q.q0
  let q1q1 := pMul q.q1 q.q1
  let q2q2 := pMul q.q2 q.q2
  let q3q3 := pMul q.q3 q.q3
  let s0 := pSub (pAdd (pAdd (pMul _4q0 q2q2) (pMul _2q2 ax_norm)) (pMul _4q0 q1q1)) (pMul _2q1 ay_norm)
  let s1 := pAdd (pAdd (pAdd (pSub (pSub (pAdd (pSub (pMul _4q1 q3q3) (pMul _2q3 ax_norm))
      (pMul (pMul (some 4.0) q0q0) q.q1)) (pMul _2q0 ay_norm)) _4q1)
      (pMul _8q1 q1q1)) (pMul _8q1 q2q2)) (pMul _4q1 az_norm)
  let s2 := pAdd (pAdd (pAdd (pSub (pSub (pAdd (pAdd (pMul (pMul (some 4.0) q0q0) q.q2)
      (pMul _2q0 ax_norm)) (pMul _4q2 q3q3)) (pMul _2q3 ay_norm)) _4q2)
      (pMul _8q2 q1q1)) (pMul _8q2 q2q2)) (pMul _4q2 az_norm)
  let s3 := pSub (pAdd (pSub (pMul (pMul (some 4.0) q1q1) q.q3) (pMul _2q1 ax_norm))
      (pMul (pMul (some 4.0) q2q2) q.q3)) (pMul _2q2 ay_norm)
  let recipNorm := pDiv (some 1.0) (pSqrt (pAdd (pAdd (pAdd (pMul s0 s0) (pMul s1 s1)) (pMul s2 s2)) (pMul s3 s3)))
  let s0_norm := pMul s0 recipNorm
  let s1_norm := pMul s1 recipNorm
  let s2_norm := pMul s2 recipNorm
  let s3_norm := pMul s3 recipNorm
  let qDot0 := pSub (pMul (some 0.5) (pSub (pSub (pMul (pNeg q.q1) (some gx)) (pMul q.q2 (some gy))) (pMul q.q3 (some gz)))) (pMul (some beta) s0_norm)
  let qDot1 := pSub (pMul (some 0.5) (pSub (pAdd (pMul q.q0 (some gx)) (pMul q.q2 (some gz))) (pMul q.q3 (some gy)))) (pMul (some beta) s1_norm)
  let qDot2 := pSub (pMul (some 0.5) (pAdd (pSub (pMul q.q0 (some gy)) (pMul q.q1 (some gz))) (pMul q.q3 (some gx)))) (pMul (some beta) s2_norm)
  let qDot3 := pSub (pMul (some 0.5) (pSub (pAdd (pMul q.q0 (some gz)) (pMul q.q1 (some gy))) (pMul q.q2 (some gx)))) (pMul (some beta) s3_norm)
  let r0 := pAdd q.q0 (pMul qDot0 (some d))
  let r1 := pAdd q.q1 (pMul qDot1 (some d))
  let r2 := pAdd q.q2 (pMul qDot2 (some d))
  let r3 := pAdd q.q3 (pMul qDot3 (some d))
  let recipNorm2 := pDiv (some 1.0) (pSqrt (pAdd (pAdd (pAdd (pMul r0 r0) (pMul r1 r1)) (pMul r2 r2)) (pMul r3 r3)))
  { q0 := pMul r0 recipNorm2, q1 := pMul r1 recipNorm2
    q2 := pMul r2 recipNorm2, q3 := pMul r3 recipNorm2 }

/-- Poisoned fused angles. -/
structure PAngles where
  roll : JR
  pitch : JR
  yaw : JR

/-- Quaternion-to-Euler under poison semantics. -/
def pMadgwickEuler (q : PQuat) : PAngles :=
  let sinr_cosp := pMul (some 2.0) (pAdd (pMul q.q0 q.q1) (pMul q.q2 q.q3))
  let cosr_cosp := pSub (some 1.0) (pMul (some 2.0) (pAdd (pMul q.q1 q.q1) (pMul q.q2 q.q2)))
  let sinp := pMul (some 2.0) (pSub (pMul q.q0 q.q2) (pMul q.q3 q.q1))
  let siny_cosp := pMul (some 2.0) (pAdd (pMul q.q0 q.q3) (pMul q.q1 q.q2))
  let cosy_cosp := pSub (some 1.0) (pMul (some 2.0) (pAdd (pMul q.q2 q.q2) (pMul q.q3 q.q3)))
  { roll := pMul (pAtan2 sinr_cosp cosr_cosp) (some (180.0 / π))
    pitch := pPitch sinp
    yaw := pWrap (pMul (pAtan2 siny_cosp cosy_cosp) (some (180.0 / π))) }

/-- Poisoned Madgwick run: state trace and per-sample fused output. -/
def pMadgwickRun (beta : ℝ) : PQuat → Option SensorDataPoint → List SensorDataPoint →
    List (PQuat × PAngles)
  | _, _, [] => []
  | q, prev, p :: rest =>
    let q' := pMadgwickStep beta q p (min (calculateDt p prev) 0.5)
    (q', pMadgwickEuler q') :: pMadgwickRun beta q' (some p) rest

/-- `applyMadgwickFilter` under poison semantics, paired with its state
trace. -/
def applyMadgwickFilterP (data : List SensorDataPoint) (beta : ℝ := 0.1) :
    List (PQuat × PAngles) :=
  pMadgwickRun beta pQuatId none data

/-- `compensateAcceleration` under poison semantics: only the angular
accelerations (finite differences divided by a possibly-zero `dt`) can be
poisoned; everything else is read straight off the sample. -/
def pCompensate (accelX accelY accelZ gyroX gyroY gyroZ : ℝ)
    (angAccelX angAccelY angAccelZ : JR) (sensorPosition : ℝ × ℝ × ℝ) : JR × JR × JR :=
  let rx := sensorPosition.1
  let ry := sensorPosition.2.1
  let rz := sensorPosition.2.2
  let wxr_x := gyroY * rz - gyroZ * ry
  let wxr_y := gyroZ * rx - gyroX * rz
  let wxr_z := gyroX * ry - gyroY * rx
  let centripetal_x := gyroY * wxr_z - gyroZ * wxr_y
  let centripetal_y := gyroZ * wxr_x - gyroX * wxr_z
  let centripetal_z := gyroX * wxr_y - gyroY * wxr_x
  let tangential_x := pSub (pMul angAccelY (some rz)) (pMul angAccelZ (some ry))
  let tangential_y := pSub (pMul angAccelZ (some rx)) (pMul angAccelX (some rz))
  let tangential_z := pSub (pMul angAccelX (some ry)) (pMul angAccelY (some rx))
  (pSub (some accelX) (pAdd (some centripetal_x) tangential_x),
   pSub (some accelY) (pAdd (some centripetal_y) tangential_y),
   pSub (some accelZ) (pAdd (some centripetal_z) tangential_z))

/-- Poisoned improved-complementary state. -/
structure PImpState where
  roll : JR
  pitch : JR
  yaw : JR
  prevGyroX : ℝ
  prevGyroY : ℝ
  prevGyroZ : ℝ
  compAccel : JR × JR × JR

/-- Initial poisoned improved-complementary state (no division occurs here, so
nothing is poisoned yet). -/
def pImpInit (firstPoint : SensorDataPoint) : PImpState :=
  let ia := compensateAcceleration firstPoint.accelX firstPoint.accelY firstPoint.accelZ
      0 0 0 0 0 0 sensorPositionVector
  { roll := some (atan2 ia.y ia.z * (180 / π))
    pitch := some (atan2 (-ia.x) (Real.sqrt (ia.y * ia.y + ia.z * ia.z)) * (180 / π))
    yaw := some 0
    prevGyroX := firstPoint.gyroX
    prevGyroY := firstPoint.gyroY
    prevGyroZ := firstPoint.gyroZ
    compAccel := (some ia.x, some ia.y, some ia.z) }

/-- One improved-complementary iteration under poison semantics: the
angular-acceleration finite difference divides by the raw `dt` (zero `dt`
poisons it), the compensation and the accel-derived angles then inherit the
poison, and so does the roll/pitch state through the blend. -/
def pImpStep (alpha : ℝ) (st : PImpState) (prev : Option SensorDataPoint)
    (p : SensorDataPoint) : PImpState :=
  let dt := calculateDt p prev
  let d := min dt 0.5
  let angAccelX := pDiv (some (p.gyroX - st.prevGyroX)) (some dt)
  let angAccelY := pDiv (some (p.gyroY - st.prevGyroY)) (some dt)
  let angAccelZ := pDiv (some (p.gyroZ - st.prevGyroZ)) (some dt)
  let ca := pCompensate p.accelX p.accelY p.accelZ p.gyroX p.gyroY p.gyroZ
      angAccelX angAccelY angAccelZ sensorPositionVector
  let accelRoll := pMul (pAtan2 ca.2.1 ca.2.2) (some (180 / π))
  let accelPitch := pMul (pAtan2 (pNeg ca.1)
      (pSqrt (pAdd (pMul ca.2.1 ca.2.1) (pMul ca.2.2 ca.2.2)))) (some (180 / π))
  let updated : JR × JR × JR :=
    match prev with
    | none => (st.roll, st.pitch, st.yaw)
    | some _ =>
      (pAdd (pMul (some alpha) (pAdd st.roll (some (p.gyroX * d)))) (pMul (some (1 - alpha)) accelRoll),
       pAdd (pMul (some alpha) (pAdd st.pitch (some (p.gyroY * d)))) (pMul (some (1 - alpha)) accelPitch),
       pWrap (pAdd st.yaw (some (p.gyroZ * d))))
  { roll := updated.1, pitch := updated.2.1, yaw := updated.2.2
    prevGyroX := p.gyroX, prevGyroY := p.gyroY, prevGyroZ := p.gyroZ
    compAccel := ca }

/-- Poisoned improved-complementary output sample fields. -/
structure PImpOut where
  roll : JR
  pitch : JR
  yaw : JR
  compAccelX : JR
  compAccelY : JR
  compAccelZ : JR

/-- Output annotation of the poisoned improved filter. -/
def pImpEmit (st : PImpState) : PImpOut :=
  { roll := st.roll, pitch := st.pitch, yaw := st.yaw
    compAccelX := st.compAccel.1, compAccelY := st.compAccel.2.1
    compAccelZ := st.compAccel.2.2 }

/-- Poisoned improved-complementary run. -/
def pImpRun (alpha : ℝ) : PImpState → Option SensorDataPoint → List SensorDataPoint →
    List PImpOut
  | _, _, [] => []
  | st, prev, p :: rest =>
    let st' := pImpStep alpha st prev p
    pImpEmit st' :: pImpRun alpha st' (some p) rest

/-- `applyImprovedComplementaryFilter` under poison semantics. -/
def applyImprovedComplementaryFilterP (data : List SensorDataPoint) (alpha : ℝ := 0.98) :
    List PImpOut :=
  match data with
  | [] => []
  | firstPoint :: _ => pImpRun alpha (pImpInit firstPoint) none data

end

/-! ## Store semantics for the complementary filter

`const result = [...data]` copies only the ARRAY of references; `result[i]`
and `data[i]` are the same object, and `result[i].roll = roll` writes through
to it.  We model the JavaScript heap as a list of sample objects addressed by
position, and an input array as a list of such addresses. -/

instance : Inhabited SensorDataPoint := ⟨{ timestamp := 0 }⟩

noncomputable section

/-- The complementary-filter loop over an array of object references `refs`
into the heap `store`: each iteration reads the current (and previous) object
from the heap, updates the filter state, and writes the fused angles back onto
the current object in place. -/
def runStoreComp (alpha : ℝ) : CompState → Option ℕ → List ℕ → List SensorDataPoint →
    List SensorDataPoint
  | _, _, [], store => store
  | st, prevRef, r :: rest, store =>
    let p := store.getD r default
    let st' := compUpd alpha st (prevRef.map fun pr => store.getD pr default) p
    runStoreComp alpha st' (some r) rest (store.set r (compEmit st' p))

/-- `applyComplementaryFilter` in store semantics: returns the final heap and
the returned array `[...data]` (the same references, in the same order). -/
def applyComplementaryFilterStore (store : List SensorDataPoint) (data : List ℕ)
    (alpha : ℝ := 0.98) : List SensorDataPoint × List ℕ :=
  match data with
  | [] => (store, [])
  | r :: _ =>
    (runStoreComp alpha (compInit (store.getD r default)) none data store, data)

/-- Erase the fused fields of a sample (used to state that mutation touches
nothing else). -/
def stripFused (p : SensorDataPoint) : SensorDataPoint :=
  { p with roll := none, pitch := none, yaw := none
           compAccelX := none, compAccelY := none, compAccelZ := none }

end

/-! ## Helper lemmas: wrap and atan2 -/

noncomputable section

open Real

theorem wrapHigh_le (y : ℝ) : wrapHigh y ≤ 180 := by
  unfold wrapHigh
  split
  · have hc : ((y - 180) / 360 : ℝ) ≤ ⌈(y - 180) / 360⌉ := Int.le_ceil _
    nlinarith
  · linarith [not_lt.mp (by assumption)]

theorem wrapLow_bounds (y : ℝ) (h : y ≤ 180) : -180 ≤ wrapLow y ∧ wrapLow y ≤ 180 := by
  unfold wrapLow
  split
  · have hc : ((-180 - y) / 360 : ℝ) ≤ ⌈(-180 - y) / 360⌉ := Int.le_ceil _
    have hc2 : ((⌈(-180 - y) / 360⌉ : ℝ)) < (-180 - y) / 360 + 1 := Int.ceil_lt_add_one _
    constructor <;> nlinarith
  · exact ⟨not_lt.mp (by assumption), h⟩

theorem wrap180_bounds (y : ℝ) : -180 ≤ wrap180 y ∧ wrap180 y ≤ 180 :=
  wrapLow_bounds _ (wrapHigh_le y)

theorem wrap180_eq_self (y : ℝ) (h1 : -180 ≤ y) (h2 : y ≤ 180) : wrap180 y = y := by
  unfold wrap180
  rw [show wrapHigh y = y from if_neg (by linarith)]
  unfold wrapLow
  exact if_neg (by linarith)

theorem arctan_nonpos {u : ℝ} (h : u ≤ 0) : arctan u ≤ 0 := by
  have := arctan_strictMono.monotone h
  rwa [arctan_zero] at this

theorem arctan_nonneg' {u : ℝ} (h : 0 ≤ u) : 0 ≤ arctan u := by
  have := arctan_strictMono.monotone h
  rwa [arctan_zero] at this

theorem atan2_bounds (y x : ℝ) : -π < atan2 y x ∧ atan2 y x ≤ π := by
  have hpi := pi_pos
  have h1 := arctan_lt_pi_div_two (y / x)
  have h2 := neg_pi_div_two_lt_arctan (y / x)
  unfold atan2
  split_ifs with hx hb hc hd he
  · constructor <;> nlinarith
  · have hyx : y / x ≤ 0 := div_nonpos_of_nonneg_of_nonpos hb.2 (le_of_lt hb.1)
    have harc := arctan_nonpos hyx
    constructor <;> nlinarith
  · have hyx : 0 < y / x := div_pos_of_neg_of_neg hc.2 hc.1
    have harc : 0 < arctan (y / x) := by
      have := arctan_strictMono hyx
      rwa [arctan_zero] at this
    constructor <;> nlinarith
  · constructor <;> nlinarith
  · constructor <;> nlinarith
  · constructor <;> nlinarith

theorem atan2_zero_neg {x : ℝ} (hx : x < 0) : atan2 0 x = π := by
  unfold atan2
  rw [if_neg (by linarith), if_pos ⟨hx, le_refl 0⟩, zero_div, arctan_zero, zero_add]

theorem atan2_zero_pos {x : ℝ} (hx : 0 < x) : atan2 0 x = 0 := by
  unfold atan2
  rw [if_pos hx, zero_div, arctan_zero]

/-! ## At-rest behavior: `accel = [0, 0, -1]`, `gyro = [0, 0, 0]` -/

/-- An at-rest sample in the convention the code normalizes to
(`accel=[0,0,-1]`, `gyro=[0,0,0]`); time fields are arbitrary. -/
def isRest (p : SensorDataPoint) : Prop :=
  p.accelX = 0 ∧ p.accelY = 0 ∧ p.accelZ = -1 ∧ p.gyroX = 0 ∧ p.gyroY = 0 ∧ p.gyroZ = 0

/-- At rest the accelerometer-derived roll is `atan2(0, -1)·180/π = 180`
degrees — not 0. -/
theorem accelRollOf_rest {p : SensorDataPoint} (hp : isRest p) : accelRollOf p = 180 := by
  obtain ⟨hax, hay, haz, _, _, _⟩ := hp
  unfold accelRollOf
  rw [hay, haz, atan2_zero_neg (by norm_num), mul_comm, div_mul_cancel₀ _ pi_ne_zero]

/-- At rest the accelerometer-derived pitch is 0. -/
theorem accelPitchOf_rest {p : SensorDataPoint} (hp : isRest p) : accelPitchOf p = 0 := by
  obtain ⟨hax, hay, haz, _, _, _⟩ := hp
  unfold accelPitchOf
  rw [hax, hay, haz]
  rw [show ((0:ℝ) * 0 + (-1:ℝ) * (-1)) = 1 by norm_num, Real.sqrt_one, neg_zero,
    atan2_zero_pos one_pos, zero_mul]

/-- The complementary-filter fixed point at rest: roll 180, pitch 0, yaw 0. -/
def restComp : CompState := { roll := 180, pitch := 0, yaw := 0 }

/-- The at-rest fused annotation the complementary and Kalman filters converge
to: roll 180 (not 0!), pitch 0, yaw 0 written on the sample. -/
def restAnnot (p : SensorDataPoint) : SensorDataPoint :=
  { p with roll := some 180, pitch := some 0, yaw := some 0 }

theorem compInit_rest {p : SensorDataPoint} (hp : isRest p) : compInit p = restComp := by
  unfold compInit restComp
  rw [accelRollOf_rest hp, accelPitchOf_rest hp]

theorem compUpd_rest (alpha : ℝ) (prev : Option SensorDataPoint) {p : SensorDataPoint}
    (hp : isRest p) : compUpd alpha restComp prev p = restComp := by
  obtain ⟨hax, hay, haz, hgx, hgy, hgz⟩ := hp
  cases prev with
  | none => rfl
  | some pr =>
    unfold compUpd compStepWithDt restComp
    rw [accelRollOf_rest ⟨hax, hay, haz, hgx, hgy, hgz⟩,
      accelPitchOf_rest ⟨hax, hay, haz, hgx, hgy, hgz⟩, hgx, hgy, hgz]
    simp only [zero_mul, add_zero, mul_zero, CompState.mk.injEq]
    exact ⟨by ring, by norm_num, wrap180_eq_self 0 (by norm_num) (by norm_num)⟩

theorem runFrom_comp_rest (alpha : ℝ) (l : List SensorDataPoint) :
    ∀ prev, (∀ p ∈ l, isRest p) →
      runFrom (compUpd alpha) compEmit restComp prev l = l.map restAnnot := by
  induction l with
  | nil => intro prev _; rfl
  | cons p rest ih =>
    intro prev h
    unfold runFrom
    rw [compUpd_rest alpha prev (h p (List.mem_cons_self p rest))]
    show restAnnot p :: runFrom (compUpd alpha) compEmit restComp (some p) rest
        = List.map restAnnot (p :: rest)
    rw [ih (some p) (fun q hq => h q (List.mem_cons_of_mem p hq))]
    rfl

/-- At-rest behavior of the whole complementary filter: every output sample
carries roll 180, pitch 0, yaw 0. -/
theorem applyComplementaryFilter_rest (alpha : ℝ) (data : List SensorDataPoint)
    (h : ∀ p ∈ data, isRest p) :
    applyComplementaryFilter data alpha = data.map restAnnot := by
  cases data with
  | nil => rfl
  | cons f rest =>
    show runFrom (compUpd alpha) compEmit (compInit f) none (f :: rest)
        = List.map restAnnot (f :: rest)
    rw [compInit_rest (h f (List.mem_cons_self f rest))]
    exact runFrom_comp_rest alpha _ none h

theorem vec6_zero (a b c d e f : ℝ) : ![a, b, c, d, e, f] 0 = a := rfl
theorem vec6_one (a b c d e f : ℝ) : ![a, b, c, d, e, f] 1 = b := rfl
theorem vec6_two (a b c d e f : ℝ) : ![a, b, c, d, e, f] 2 = c := rfl
theorem vec6_three (a b c d e f : ℝ) : ![a, b, c, d, e, f] 3 = d := rfl
theorem vec6_four (a b c d e f : ℝ) : ![a, b, c, d, e, f] 4 = e := rfl
theorem vec6_five (a b c d e f : ℝ) : ![a, b, c, d, e, f] 5 = f := rfl

/-- The Kalman state estimate at rest: roll 180, everything else 0. -/
def restX : Fin 6 → ℝ := ![180, 0, 0, 0, 0, 0]

theorem Fmat_mulVec_restX (d : ℝ) : multiplyMatrixVector (Fmat d) restX = restX := by
  funext i
  fin_cases i <;>
    simp [multiplyMatrixVector, Fmat, restX, Fin.sum_univ_six,
      vec6_zero, vec6_one, vec6_two, vec6_three, vec6_four, vec6_five]

theorem mulVec_Hmat (v : Fin 6 → ℝ) : multiplyMatrixVector Hmat v = v := by
  funext i
  simp [multiplyMatrixVector, Hmat, ite_mul, one_mul, zero_mul, Finset.sum_ite_eq]

theorem mulVec_zero_vec (A : Matrix (Fin 6) (Fin 6) ℝ) :
    multiplyMatrixVector A (fun _ => 0) = fun _ => 0 := by
  funext i
  simp [multiplyMatrixVector]

theorem kalmanInit_rest {p : SensorDataPoint} (hp : isRest p) : (kalmanInit p).x = restX := by
  obtain ⟨hax, hay, haz, hgx, hgy, hgz⟩ := hp
  unfold kalmanInit restX
  rw [accelRollOf_rest ⟨hax, hay, haz, hgx, hgy, hgz⟩,
    accelPitchOf_rest ⟨hax, hay, haz, hgx, hgy, hgz⟩, hgx, hgy, hgz]

theorem kalmanStep_rest {st : KState} (hx : st.x = restX) {p : SensorDataPoint}
    (hp : isRest p) (d : ℝ) : (kalmanStepWithDt st p d).x = restX := by
  obtain ⟨x, P⟩ := st
  obtain rfl : x = restX := hx
  obtain ⟨hax, hay, haz, hgx, hgy, hgz⟩ := hp
  have hroll := accelRollOf_rest ⟨hax, hay, haz, hgx, hgy, hgz⟩
  have hpitch := accelPitchOf_rest ⟨hax, hay, haz, hgx, hgy, hgz⟩
  unfold kalmanStepWithDt
  simp only [Fmat_mulVec_restX, hroll, hpitch, hgx, hgy, hgz, mulVec_Hmat]
  have hy : (fun i => (![180, 0, restX 2 + 0 * d, 0, 0, 0] : Fin 6 → ℝ) i - restX i)
      = fun _ => (0:ℝ) := by
    funext j
    fin_cases j <;>
      simp [restX, vec6_zero, vec6_one, vec6_two, vec6_three, vec6_four, vec6_five]
  rw [hy, mulVec_zero_vec]
  funext i
  fin_cases i <;> simp [restX, vec6_zero, vec6_one, vec6_two] <;>
    rw [wrap180_eq_self] <;> norm_num [restX]

theorem compEmit_restComp (p : SensorDataPoint) : compEmit restComp p = restAnnot p := rfl

theorem kalmanEmit_restX {st : KState} (hx : st.x = restX) (p : SensorDataPoint) :
    kalmanEmit st p = restAnnot p := by
  unfold kalmanEmit restAnnot
  rw [hx]
  rfl

theorem runFrom_kalman_rest (l : List SensorDataPoint) :
    ∀ prev (st : KState), st.x = restX → (∀ p ∈ l, isRest p) →
      runFrom kalmanUpd kalmanEmit st prev l = l.map restAnnot := by
  induction l with
  | nil => intro prev st _ _; rfl
  | cons p rest ih =>
    intro prev st hx h
    have hp := h p (List.mem_cons_self p rest)
    have hx' : (kalmanUpd st prev p).x = restX := by
      cases prev with
      | none => exact hx
      | some pr => exact kalmanStep_rest hx hp _
    unfold runFrom
    show kalmanEmit (kalmanUpd st prev p) p ::
        runFrom kalmanUpd kalmanEmit (kalmanUpd st prev p) (some p) rest
        = List.map restAnnot (p :: rest)
    rw [kalmanEmit_restX hx', ih (some p) _ hx' (fun q hq => h q (List.mem_cons_of_mem p hq))]
    rfl

/-- At-rest behavior of the Kalman filter: every output sample carries roll
180, pitch 0, yaw 0. -/
theorem applyKalmanFilter_rest (data : List SensorDataPoint)
    (h : ∀ p ∈ data, isRest p) : applyKalmanFilter data = data.map restAnnot := by
  cases data with
  | nil => rfl
  | cons f rest =>
    show runFrom kalmanUpd kalmanEmit (kalmanInit f) none (f :: rest)
        = List.map restAnnot (f :: rest)
    exact runFrom_kalman_rest _ none _ (kalmanInit_rest (h f (List.mem_cons_self f rest))) h

theorem madgwickStep_rest {p : SensorDataPoint} (hp : isRest p) (beta d : ℝ) :
    madgwickStepWithDt beta quatId p d = quatId := by
  obtain ⟨hax, hay, haz, hgx, hgy, hgz⟩ := hp
  unfold madgwickStepWithDt quatId degToRad
  rw [hax, hay, haz, hgx, hgy, hgz]
  norm_num [Real.sqrt_one, Real.sqrt_zero]

theorem madgwickEuler_quatId : madgwickEuler quatId = (0, 0, 0) := by
  unfold madgwickEuler quatId
  norm_num [atan2_zero_pos, Real.arcsin_zero]
  exact wrap180_eq_self 0 (by norm_num) (by norm_num)

/-- In exact real arithmetic the Madgwick filter annotates at-rest samples
with roll 0, pitch 0, yaw 0 (in IEEE arithmetic the zero gradient instead
divides 0/0 and poisons the state with NaN; see the poison semantics). -/
def zeroAnnot (p : SensorDataPoint) : SensorDataPoint :=
  { p with roll := some 0, pitch := some 0, yaw := some 0 }

theorem madgwickEmit_quatId (p : SensorDataPoint) : madgwickEmit quatId p = zeroAnnot p := by
  unfold madgwickEmit zeroAnnot
  rw [madgwickEuler_quatId]

theorem runFrom_madgwick_rest (beta : ℝ) (l : List SensorDataPoint) :
    ∀ prev, (∀ p ∈ l, isRest p) →
      runFrom (madgwickUpd beta) madgwickEmit quatId prev l = l.map zeroAnnot := by
  induction l with
  | nil => intro prev _; rfl
  | cons p rest ih =>
    intro prev h
    have hp := h p (List.mem_cons_self p rest)
    have hupd : madgwickUpd beta quatId prev p = quatId := madgwickStep_rest hp beta _
    unfold runFrom
    rw [hupd]
    show madgwickEmit quatId p :: runFrom (madgwickUpd beta) madgwickEmit quatId (some p) rest
        = List.map zeroAnnot (p :: rest)
    rw [madgwickEmit_quatId, ih (some p) (fun q hq => h q (List.mem_cons_of_mem p hq))]
    rfl

/-- At-rest behavior of the Madgwick filter in exact real arithmetic. -/
theorem applyMadgwickFilter_rest (data : List SensorDataPoint) (beta : ℝ)
    (h : ∀ p ∈ data, isRest p) : applyMadgwickFilter data beta = data.map zeroAnnot := by
  cases data with
  | nil => rfl
  | cons f rest =>
    show runFrom (madgwickUpd beta) madgwickEmit quatId none (f :: rest)
        = List.map zeroAnnot (f :: rest)
    exact runFrom_madgwick_rest beta _ none h

theorem runStates_madgwick_rest (beta : ℝ) (l : List SensorDataPoint) :
    ∀ prev, (∀ p ∈ l, isRest p) →
      runStates (madgwickUpd beta) quatId prev l = l.map (fun _ => quatId) := by
  induction l with
  | nil => intro prev _; rfl
  | cons p rest ih =>
    intro prev h
    have hupd : madgwickUpd beta quatId prev p = quatId :=
      madgwickStep_rest (h p (List.mem_cons_self p rest)) beta _
    unfold runStates
    rw [hupd]
    show quatId :: runStates (madgwickUpd beta) quatId (some p) rest
        = List.map (fun _ => quatId) (p :: rest)
    rw [ih (some p) (fun q hq => h q (List.mem_cons_of_mem p hq))]
    rfl

/-! ## Range invariants -/

theorem scaled_atan2_bounds (y x : ℝ) :
    -180 < atan2 y x * (180 / π) ∧ atan2 y x * (180 / π) ≤ 180 := by
  obtain ⟨h1, h2⟩ := atan2_bounds y x
  have hc : (0:ℝ) < 180 / π := by positivity
  have h3 : π * (180 / π) = 180 := by field_simp
  constructor
  · have hm := mul_lt_mul_of_pos_right h1 hc
    nlinarith
  · have hm := mul_le_mul_of_nonneg_right h2 (le_of_lt hc)
    nlinarith

theorem accelRollOf_bounds (p : SensorDataPoint) :
    -180 < accelRollOf p ∧ accelRollOf p ≤ 180 := scaled_atan2_bounds _ _

theorem accelPitchOf_bounds (p : SensorDataPoint) :
    -180 < accelPitchOf p ∧ accelPitchOf p ≤ 180 := scaled_atan2_bounds _ _

/-- Yaw range of the state after one complementary update. -/
theorem compUpd_yaw_bounds (alpha : ℝ) (st : CompState) (prev : Option SensorDataPoint)
    (p : SensorDataPoint) (h1 : -180 ≤ st.yaw) (h2 : st.yaw ≤ 180) :
    -180 ≤ (compUpd alpha st prev p).yaw ∧ (compUpd alpha st prev p).yaw ≤ 180 := by
  cases prev with
  | none => exact ⟨h1, h2⟩
  | some pr => exact wrap180_bounds _

theorem runFrom_comp_yaw (alpha : ℝ) (l : List SensorDataPoint) :
    ∀ prev (st : CompState), -180 ≤ st.yaw → st.yaw ≤ 180 →
      ∀ out ∈ runFrom (compUpd alpha) compEmit st prev l,
        ∀ y, out.yaw = some y → -180 ≤ y ∧ y ≤ 180 := by
  induction l with
  | nil => intro _ _ _ _ out hout; cases hout
  | cons p rest ih =>
    intro prev st h1 h2 out hout y hy
    obtain ⟨hb1, hb2⟩ := compUpd_yaw_bounds alpha st prev p h1 h2
    rcases List.mem_cons.mp hout with h | h
    · subst h
      obtain rfl : y = (compUpd alpha st prev p).yaw := by
        have : (compEmit (compUpd alpha st prev p) p).yaw
            = some (compUpd alpha st prev p).yaw := rfl
        rw [this] at hy
        exact (Option.some_injective ℝ hy).symm
      exact ⟨hb1, hb2⟩
    · exact ih (some p) _ hb1 hb2 out h y hy

/-- Yaw range of the state after one improved-complementary update. -/
theorem impUpd_yaw_bounds (alpha : ℝ) (st : ImpState) (prev : Option SensorDataPoint)
    (p : SensorDataPoint) (h1 : -180 ≤ st.yaw) (h2 : st.yaw ≤ 180) :
    -180 ≤ (impUpd alpha st prev p).yaw ∧ (impUpd alpha st prev p).yaw ≤ 180 := by
  cases prev with
  | none => exact ⟨h1, h2⟩
  | some pr => exact wrap180_bounds _

theorem runFrom_imp_yaw (alpha : ℝ) (l : List SensorDataPoint) :
    ∀ prev (st : ImpState), -180 ≤ st.yaw → st.yaw ≤ 180 →
      ∀ out ∈ runFrom (impUpd alpha) impEmit st prev l,
        ∀ y, out.yaw = some y → -180 ≤ y ∧ y ≤ 180 := by
  induction l with
  | nil => intro _ _ _ _ out hout; cases hout
  | cons p rest ih =>
    intro prev st h1 h2 out hout y hy
    obtain ⟨hb1, hb2⟩ := impUpd_yaw_bounds alpha st prev p h1 h2
    rcases List.mem_cons.mp hout with h | h
    · subst h
      obtain rfl : y = (impUpd alpha st prev p).yaw := by
        have : (impEmit (impUpd alpha st prev p) p).yaw
            = some (impUpd alpha st prev p).yaw := rfl
        rw [this] at hy
        exact (Option.some_injective ℝ hy).symm
      exact ⟨hb1, hb2⟩
    · exact ih (some p) _ hb1 hb2 out h y hy

/-- Angle-range invariant of the Kalman state. -/
def kalmanAngleBounds (st : KState) : Prop :=
  ∀ i : Fin 6, (i : ℕ) < 3 → -180 ≤ st.x i ∧ st.x i ≤ 180

theorem kalmanInit_bounds (p : SensorDataPoint) : kalmanAngleBounds (kalmanInit p) := by
  intro i hi
  unfold kalmanInit
  fin_cases i <;>
    first
    | exact absurd hi (by decide)
    | (simp only [vec6_zero, vec6_one, vec6_two]
       first
       | exact ⟨le_of_lt (accelRollOf_bounds p).1, (accelRollOf_bounds p).2⟩
       | exact ⟨le_of_lt (accelPitchOf_bounds p).1, (accelPitchOf_bounds p).2⟩
       | norm_num)

theorem kalmanStep_bounds (st : KState) (p : SensorDataPoint) (d : ℝ) :
    kalmanAngleBounds (kalmanStepWithDt st p d) := by
  intro i hi
  unfold kalmanStepWithDt
  simp only [hi, if_pos]
  exact wrap180_bounds _

theorem kalmanUpd_bounds (st : KState) (prev : Option SensorDataPoint) (p : SensorDataPoint)
    (h : kalmanAngleBounds st) : kalmanAngleBounds (kalmanUpd st prev p) := by
  cases prev with
  | none => exact h
  | some pr => exact kalmanStep_bounds _ _ _

theorem runFrom_kalman_bounds (l : List SensorDataPoint) :
    ∀ prev (st : KState), kalmanAngleBounds st →
      ∀ out ∈ runFrom kalmanUpd kalmanEmit st prev l,
        (∀ y, out.yaw = some y → -180 ≤ y ∧ y ≤ 180) ∧
        (∀ r, out.roll = some r → -180 ≤ r ∧ r ≤ 180) ∧
        (∀ q, out.pitch = some q → -180 ≤ q ∧ q ≤ 180) := by
  induction l with
  | nil => intro _ _ _ out hout; cases hout
  | cons p rest ih =>
    intro prev st hb out hout
    have hb' := kalmanUpd_bounds st prev p hb
    rcases List.mem_cons.mp hout with h | h
    · subst h
      refine ⟨fun y hy => ?_, fun r hr => ?_, fun q hq => ?_⟩
      · obtain rfl : y = (kalmanUpd st prev p).x 2 := (Option.some_injective ℝ hy).symm
        exact hb' 2 (by norm_num)
      · obtain rfl : r = (kalmanUpd st prev p).x 0 := (Option.some_injective ℝ hr).symm
        exact hb' 0 (by norm_num)
      · obtain rfl : q = (kalmanUpd st prev p).x 1 := (Option.some_injective ℝ hq).symm
        exact hb' 1 (by norm_num)
    · exact ih (some p) _ hb' out h

theorem runFrom_madgwick_yaw (beta : ℝ) (l : List SensorDataPoint) :
    ∀ prev (q : Quat), ∀ out ∈ runFrom (madgwickUpd beta) madgwickEmit q prev l,
      ∀ y, out.yaw = some y → -180 ≤ y ∧ y ≤ 180 := by
  induction l with
  | nil => intro _ _ out hout; cases hout
  | cons p rest ih =>
    intro prev q out hout y hy
    rcases List.mem_cons.mp hout with h | h
    · subst h
      obtain rfl : y = (madgwickEuler (madgwickUpd beta q prev p)).2.2 :=
        (Option.some_injective ℝ hy).symm
      exact wrap180_bounds _
    · exact ih (some p) _ out h y hy

/-- Even under IEEE semantics (poison model) the improved complementary
filter's yaw state is never poisoned: no division feeds the yaw path, which is
plain gyro integration followed by the wrap loops. -/
theorem pImpStep_yaw (alpha : ℝ) (st : PImpState) (prev : Option SensorDataPoint)
    (p : SensorDataPoint) (y0 : ℝ) (hst : st.yaw = some y0) (hlo : -180 ≤ y0)
    (hhi : y0 ≤ 180) :
    ∃ y, (pImpStep alpha st prev p).yaw = some y ∧ -180 ≤ y ∧ y ≤ 180 := by
  cases prev with
  | none => exact ⟨y0, hst, hlo, hhi⟩
  | some pr =>
    refine ⟨wrap180 (y0 + p.gyroZ * min (calculateDt p (some pr)) 0.5), ?_,
      wrap180_bounds _⟩
    show pWrap (pAdd st.yaw (some (p.gyroZ * min (calculateDt p (some pr)) 0.5))) = _
    rw [hst]
    rfl

/-- Every output of a poisoned improved-complementary run started from an
in-range unpoisoned yaw state carries an unpoisoned yaw in `[-180, 180]`. -/
theorem pImpRun_yaw (alpha : ℝ) (data : List SensorDataPoint) :
    ∀ (st : PImpState) (prev : Option SensorDataPoint) (y0 : ℝ),
      st.yaw = some y0 → -180 ≤ y0 → y0 ≤ 180 →
      ∀ out ∈ pImpRun alpha st prev data,
        ∃ y, out.yaw = some y ∧ -180 ≤ y ∧ y ≤ 180 := by
  induction data with
  | nil => intro _ _ _ _ _ _ out hout; cases hout
  | cons p rest ih =>
    intro st prev y0 hst hlo hhi out hout
    obtain ⟨y1, hy1, hlo1, hhi1⟩ := pImpStep_yaw alpha st prev p y0 hst hlo hhi
    rcases List.mem_cons.mp hout with h | h
    · subst h
      exact ⟨y1, hy1, hlo1, hhi1⟩
    · exact ih (pImpStep alpha st prev p) (some p) y1 hy1 hlo1 hhi1 out h

/-! ## Unit-norm preservation of the Madgwick quaternion -/

set_option maxHeartbeats 1000000 in
/-- Algebraic core of the Madgwick norm invariant: one gradient-descent step
(arbitrary gradient `s`, gyro rates `g`, `β = 0.1`, step `d ∈ [0, 1/2]`)
followed by re-normalization keeps the quaternion exactly unit — the integrated
quaternion cannot vanish because the gyro part is orthogonal to `q` and the
normalized-gradient part has norm at most 1. -/
theorem quatStepUnitNorm {q0 q1 q2 q3 gx gy gz s0 s1 s2 s3 d c u0 u1 u2 u3 D0 D1 D2 D3
    r0 r1 r2 r3 c2 : ℝ}
    (hq : q0*q0 + q1*q1 + q2*q2 + q3*q3 = 1)
    (hd0 : 0 ≤ d) (hd : d ≤ 1/2)
    (hr0 : r0 = q0 + D0 * d) (hr1 : r1 = q1 + D1 * d)
    (hr2 : r2 = q2 + D2 * d) (hr3 : r3 = q3 + D3 * d)
    (hD0 : D0 = 0.5 * (-q1*gx - q2*gy - q3*gz) - 0.1 * u0)
    (hD1 : D1 = 0.5 * (q0*gx + q2*gz - q3*gy) - 0.1 * u1)
    (hD2 : D2 = 0.5 * (q0*gy - q1*gz + q3*gx) - 0.1 * u2)
    (hD3 : D3 = 0.5 * (q0*gz + q1*gy - q2*gx) - 0.1 * u3)
    (hu0 : u0 = s0 * c) (hu1 : u1 = s1 * c) (hu2 : u2 = s2 * c) (hu3 : u3 = s3 * c)
    (hc : c = 1.0 / Real.sqrt (s0*s0 + s1*s1 + s2*s2 + s3*s3))
    (hc2 : c2 = 1.0 / Real.sqrt (r0*r0 + r1*r1 + r2*r2 + r3*r3)) :
    (r0*c2) * (r0*c2) + (r1*c2) * (r1*c2) + (r2*c2) * (r2*c2) + (r3*c2) * (r3*c2) = 1 := by
  have huSum : u0*u0 + u1*u1 + u2*u2 + u3*u3 ≤ 1 := by
    have hnn : (0:ℝ) ≤ s0*s0 + s1*s1 + s2*s2 + s3*s3 := by
      nlinarith [mul_self_nonneg s0, mul_self_nonneg s1, mul_self_nonneg s2, mul_self_nonneg s3]
    rcases eq_or_lt_of_le hnn with hz | hpos
    · have h0 : s0 = 0 := mul_self_eq_zero.mp (le_antisymm
        (by linarith [mul_self_nonneg s1, mul_self_nonneg s2, mul_self_nonneg s3]) (mul_self_nonneg s0))
      have h1 : s1 = 0 := mul_self_eq_zero.mp (le_antisymm
        (by linarith [mul_self_nonneg s0, mul_self_nonneg s2, mul_self_nonneg s3]) (mul_self_nonneg s1))
      have h2 : s2 = 0 := mul_self_eq_zero.mp (le_antisymm
        (by linarith [mul_self_nonneg s0, mul_self_nonneg s1, mul_self_nonneg s3]) (mul_self_nonneg s2))
      have h3 : s3 = 0 := mul_self_eq_zero.mp (le_antisymm
        (by linarith [mul_self_nonneg s0, mul_self_nonneg s1, mul_self_nonneg s2]) (mul_self_nonneg s3))
      rw [hu0, hu1, hu2, hu3, h0, h1, h2, h3]
      norm_num
    · have hsq : Real.sqrt (s0*s0 + s1*s1 + s2*s2 + s3*s3) ^ 2 = s0*s0 + s1*s1 + s2*s2 + s3*s3 :=
        Real.sq_sqrt (le_of_lt hpos)
      have hsp : (0:ℝ) < Real.sqrt (s0*s0 + s1*s1 + s2*s2 + s3*s3) := Real.sqrt_pos.mpr hpos
      have expand : u0*u0 + u1*u1 + u2*u2 + u3*u3
          = (s0*s0 + s1*s1 + s2*s2 + s3*s3) / Real.sqrt (s0*s0 + s1*s1 + s2*s2 + s3*s3) ^ 2 := by
        rw [hu0, hu1, hu2, hu3, hc]
        field_simp
        ring
      rw [expand, hsq, div_self (ne_of_gt hpos)]
  have hCS : (u0*q0 + u1*q1 + u2*q2 + u3*q3)^2 ≤ 1 := by
    have lag : (u0*q0 + u1*q1 + u2*q2 + u3*q3)^2
        ≤ (u0*u0 + u1*u1 + u2*u2 + u3*u3) * (q0*q0 + q1*q1 + q2*q2 + q3*q3) := by
      linarith [sq_nonneg (u0*q1 - u1*q0), sq_nonneg (u0*q2 - u2*q0), sq_nonneg (u0*q3 - u3*q0),
        sq_nonneg (u1*q2 - u2*q1), sq_nonneg (u1*q3 - u3*q1), sq_nonneg (u2*q3 - u3*q2),
        sq_nonneg (u0*q0 + u1*q1 + u2*q2 + u3*q3)]
    rw [hq] at lag
    linarith
  have hXle : u0*q0 + u1*q1 + u2*q2 + u3*q3 ≤ 1 := by
    nlinarith [sq_nonneg (u0*q0 + u1*q1 + u2*q2 + u3*q3 - 1)]
  have hinner : r0*q0 + r1*q1 + r2*q2 + r3*q3
      = 1 - d * 0.1 * (u0*q0 + u1*q1 + u2*q2 + u3*q3) := by
    rw [hr0, hr1, hr2, hr3, hD0, hD1, hD2, hD3]
    linear_combination hq
  have hbound : (19:ℝ)/20 ≤ r0*q0 + r1*q1 + r2*q2 + r3*q3 := by
    rw [hinner]
    nlinarith [mul_nonneg hd0 (sub_nonneg.mpr hXle)]
  have hr2pos : (0:ℝ) < r0*r0 + r1*r1 + r2*r2 + r3*r3 := by
    by_contra hcon
    push_neg at hcon
    have e0 : r0 = 0 := mul_self_eq_zero.mp (le_antisymm
      (by linarith [mul_self_nonneg r1, mul_self_nonneg r2, mul_self_nonneg r3]) (mul_self_nonneg r0))
    have e1 : r1 = 0 := mul_self_eq_zero.mp (le_antisymm
      (by linarith [mul_self_nonneg r0, mul_self_nonneg r2, mul_self_nonneg r3]) (mul_self_nonneg r1))
    have e2 : r2 = 0 := mul_self_eq_zero.mp (le_antisymm
      (by linarith [mul_self_nonneg r0, mul_self_nonneg r1, mul_self_nonneg r3]) (mul_self_nonneg r2))
    have e3 : r3 = 0 := mul_self_eq_zero.mp (le_antisymm
      (by linarith [mul_self_nonneg r0, mul_self_nonneg r1, mul_self_nonneg r2]) (mul_self_nonneg r3))
    rw [e0, e1, e2, e3] at hbound
    norm_num at hbound
  have hsr : Real.sqrt (r0*r0 + r1*r1 + r2*r2 + r3*r3) ^ 2 = r0*r0 + r1*r1 + r2*r2 + r3*r3 :=
    Real.sq_sqrt (le_of_lt hr2pos)
  have hsrpos : (0:ℝ) < Real.sqrt (r0*r0 + r1*r1 + r2*r2 + r3*r3) := Real.sqrt_pos.mpr hr2pos
  have expand2 : (r0*c2) * (r0*c2) + (r1*c2) * (r1*c2) + (r2*c2) * (r2*c2) + (r3*c2) * (r3*c2)
      = (r0*r0 + r1*r1 + r2*r2 + r3*r3) / Real.sqrt (r0*r0 + r1*r1 + r2*r2 + r3*r3) ^ 2 := by
    rw [hc2]
    field_simp
    ring
  rw [expand2, hsr, div_self (ne_of_gt hr2pos)]

set_option maxHeartbeats 1000000 in
/-- One Madgwick step at the default gain keeps the quaternion exactly unit in
exact real arithmetic, provided the integration step is in `[0, 1/2]`. -/
theorem madgwickStep_normSq (p : SensorDataPoint) {q : Quat} (hq : q.normSq = 1)
    {d : ℝ} (hd0 : 0 ≤ d) (hd : d ≤ 1/2) :
    (madgwickStepWithDt 0.1 q p d).normSq = 1 := by
  obtain ⟨q0, q1, q2, q3⟩ := q
  unfold Quat.normSq at hq ⊢
  unfold madgwickStepWithDt
  exact quatStepUnitNorm hq hd0 hd rfl rfl rfl rfl rfl rfl rfl rfl rfl rfl rfl rfl rfl rfl

/-- Time steps are nonnegative step-to-step when the sample sequence has
nondecreasing `calculateDt` values (the data-model invariant: relative times
nondecreasing). -/
def dtOrdered (data : List SensorDataPoint) : Prop :=
  List.Chain' (fun a b => 0 ≤ calculateDt b (some a)) data

theorem runStates_madgwick_normSq (l : List SensorDataPoint) :
    ∀ (prev : Option SensorDataPoint) (q : Quat), Quat.normSq q = 1 →
      List.Chain' (fun a b => 0 ≤ calculateDt b (some a)) (prev.toList ++ l) →
      ∀ s ∈ runStates (madgwickUpd 0.1) q prev l, Quat.normSq s = 1 := by
  induction l with
  | nil => intro prev q _ _ s hs; cases hs
  | cons p rest ih =>
    intro prev q hq hch s hs
    have hd0 : 0 ≤ min (calculateDt p prev) 0.5 := by
      cases prev with
      | none =>
        have : calculateDt p none = 0.1 := rfl
        rw [le_min_iff, this]
        norm_num
      | some pr =>
        have hrel : 0 ≤ calculateDt p (some pr) :=
          (List.chain'_cons.mp hch).1
        exact le_min hrel (by norm_num)
    have hd1 : min (calculateDt p prev) 0.5 ≤ 1/2 :=
      le_trans (min_le_right _ _) (by norm_num)
    have hq' : Quat.normSq (madgwickUpd 0.1 q prev p) = 1 :=
      madgwickStep_normSq p hq hd0 hd1
    have hch' : List.Chain' (fun a b => 0 ≤ calculateDt b (some a)) ((some p).toList ++ rest) := by
      cases prev with
      | none => exact hch
      | some pr => exact (List.chain'_cons.mp hch).2
    rcases List.mem_cons.mp hs with h | h
    · rw [h]; exact hq'
    · exact ih (some p) _ hq' hch' s h

/-! ## Causality: the online runs are prefix-determined -/

theorem runFrom_take_congr {σ : Type} (upd : σ → Option SensorDataPoint → SensorDataPoint → σ)
    (emit : σ → SensorDataPoint → SensorDataPoint) :
    ∀ (n : ℕ) (st : σ) (prev : Option SensorDataPoint) (l l' : List SensorDataPoint),
      l.take n = l'.take n →
      (runFrom upd emit st prev l).take n = (runFrom upd emit st prev l').take n := by
  intro n
  induction n with
  | zero => intro st prev l l' _; rfl
  | succ n ih =>
    intro st prev l l' h
    cases l with
    | nil =>
      have : l' = [] := by
        have h' := h.symm
        rw [List.take_nil] at h'
        rcases List.take_eq_nil_iff.mp h' with h'' | h''
        · exact absurd h'' (Nat.succ_ne_zero n)
        · exact h''
      subst this
      rfl
    | cons p t =>
      cases l' with
      | nil => rw [List.take_nil] at h; cases h
      | cons p' t' =>
        rw [List.take_succ_cons, List.take_succ_cons] at h
        obtain ⟨rfl, htt⟩ := List.cons.injEq .. ▸ h
        show (emit (upd st prev p) p :: runFrom upd emit (upd st prev p) (some p) t).take (n+1)
            = (emit (upd st prev p) p :: runFrom upd emit (upd st prev p) (some p) t').take (n+1)
        rw [List.take_succ_cons, List.take_succ_cons, ih (upd st prev p) (some p) t t' htt]

theorem get?_congr_of_take {α : Type} (i : ℕ) (L L' : List α)
    (h : L.take (i + 1) = L'.take (i + 1)) : L.get? i = L'.get? i := by
  rw [List.get?_eq_getElem?, List.get?_eq_getElem?,
    ← List.getElem?_take_of_lt (l := L) (Nat.lt_succ_self i), h,
    List.getElem?_take_of_lt (l := L') (Nat.lt_succ_self i)]

/-- Any function of the shape all four filters share (initialize from the
first sample, then run online) is prefix-determined. -/
theorem applyShape_get?_congr {σ : Type}
    (upd : σ → Option SensorDataPoint → SensorDataPoint → σ)
    (emit : σ → SensorDataPoint → SensorDataPoint) (init : SensorDataPoint → σ)
    (data data' : List SensorDataPoint) (i : ℕ)
    (h1 : i < data.length) (h2 : i < data'.length)
    (ht : data.take (i + 1) = data'.take (i + 1)) :
    (match data with
      | [] => []
      | f :: _ => runFrom upd emit (init f) none data).get? i
    = (match data' with
      | [] => []
      | f :: _ => runFrom upd emit (init f) none data').get? i := by
  cases data with
  | nil => exact absurd h1 (by simp)
  | cons f rest =>
    cases data' with
    | nil => exact absurd h2 (by simp)
    | cons f' rest' =>
      have hf : f = f' := by
        rw [List.take_succ_cons, List.take_succ_cons] at ht
        exact (List.cons.injEq .. ▸ ht).1
      subst hf
      exact get?_congr_of_take i _ _
        (runFrom_take_congr upd emit (i + 1) (init f) none (f :: rest) (f :: rest') ht)

/-! ## Concrete samples used by counterexamples and witnesses -/

/-- A concrete at-rest sample. -/
def restP : SensorDataPoint := { timestamp := 0, relativeTime := some 0, accelZ := -1 }

theorem isRest_restP : isRest restP := ⟨rfl, rfl, rfl, rfl, rfl, rfl⟩

/-- An at-rest-attitude sample with an enormous roll rate. -/
def bigGyroP : SensorDataPoint :=
  { timestamp := 1000, relativeTime := some 1, accelZ := -1, gyroX := 100000 }

theorem accelRollOf_restAccel {p : SensorDataPoint} (hay : p.accelY = 0)
    (haz : p.accelZ = -1) : accelRollOf p = 180 := by
  unfold accelRollOf
  rw [hay, haz, atan2_zero_neg (by norm_num), mul_comm, div_mul_cancel₀ _ pi_ne_zero]

/-- The improved complementary update at `i > 0` blends the gyro-integrated
roll with SOME accel-derived angle in `(-180, 180]`. -/
theorem impUpd_roll_some (alpha : ℝ) (st : ImpState) (pr p : SensorDataPoint) :
    ∃ ar, -180 < ar ∧ ar ≤ 180 ∧
      (impUpd alpha st (some pr) p).roll
        = alpha * (st.roll + p.gyroX * min (calculateDt p (some pr)) 0.5)
          + (1 - alpha) * ar := by
  refine
    let ca := compensateAcceleration p.accelX p.accelY p.accelZ p.gyroX p.gyroY p.gyroZ
      ((p.gyroX - st.prevGyroX) / calculateDt p (some pr))
      ((p.gyroY - st.prevGyroY) / calculateDt p (some pr))
      ((p.gyroZ - st.prevGyroZ) / calculateDt p (some pr)) sensorPositionVector
    ⟨atan2 ca.y ca.z * (180 / π), (scaled_atan2_bounds _ _).1,
      (scaled_atan2_bounds _ _).2, ?_⟩
  rfl

/-- 50 identical at-rest samples. -/
def atRest50 : List SensorDataPoint := List.replicate 50 restP

theorem atRest50_rest : ∀ p ∈ atRest50, isRest p := fun p hp => by
  rw [List.eq_of_mem_replicate hp]
  exact isRest_restP

/-- An at-rest sample whose relative time has jumped 10 s ahead of `restP`. -/
def p10 : SensorDataPoint := { timestamp := 10000, relativeTime := some 10, accelZ := -1 }

/-- A sample whose accelerometer vector is all zero (zero norm). -/
def zeroAccelP : SensorDataPoint := { timestamp := 0, relativeTime := some 0 }

/-- First of two samples with identical relative time (so `dt = 0`). -/
def dtz1 : SensorDataPoint := { timestamp := 0, relativeTime := some 1, accelZ := -1, gyroX := 1 }

/-- Second sample at the same relative time but different `gyroX`: the
angular-acceleration finite difference divides a nonzero number by zero. -/
def dtz2 : SensorDataPoint := { timestamp := 0, relativeTime := some 1, accelZ := -1, gyroX := 2 }

end

/-! ## Ingestion lemmas: row arity and mapM behavior -/

theorem splitChar_length_pos (c : Char) :
    ∀ (l acc : List Char), 0 < (splitChar c l acc).length := by
  intro l
  induction l with
  | nil => intro acc; simp [splitChar]
  | cons x xs ih =>
    intro acc
    unfold splitChar
    split
    · simp
    · exact ih _

theorem splitStr_length_pos (s : String) (c : Char) : 0 < (splitStr s c).length :=
  splitChar_length_pos c s.data []

theorem buildRow_ok (values : List String) :
    ∀ (hs : List String) (i : ℕ) (obj : RowObj), i + hs.length ≤ values.length →
      ∃ o, buildRow values hs i obj = .ok o := by
  intro hs
  induction hs with
  | nil => intro i obj _; exact ⟨obj, rfl⟩
  | cons hd tl ih =>
    intro i obj h
    unfold buildRow
    by_cases hi : i = 0
    · rw [if_pos hi]
      exact ih (i + 1) _ (by simp at h ⊢; omega)
    · rw [if_neg hi]
      have hlt : i < values.length := by simp at h; omega
      rw [List.get?_eq_getElem?, List.getElem?_eq_getElem hlt]
      exact ih (i + 1) _ (by simp at h ⊢; omega)

theorem buildRow_err (values : List String) :
    ∀ (hs : List String) (i : ℕ) (obj : RowObj), 1 ≤ values.length → i ≤ values.length →
      values.length < i + hs.length →
      buildRow values hs i obj = .error .typeError := by
  intro hs
  induction hs with
  | nil => intro i obj _ h1 h2; simp at h2; omega
  | cons hd tl ih =>
    intro i obj hv hi h
    unfold buildRow
    by_cases hi0 : i = 0
    · rw [if_pos hi0]
      exact ih (i + 1) _ hv (by omega) (by simp at h ⊢; omega)
    · rw [if_neg hi0]
      by_cases hlt : i < values.length
      · rw [List.get?_eq_getElem?, List.getElem?_eq_getElem hlt]
        exact ih (i + 1) _ hv (by omega) (by simp at h ⊢; omega)
      · rw [List.get?_eq_getElem?, List.getElem?_eq_none (by omega)]

theorem parseRow_ok (headers : List String) (row : String)
    (h : headers.length ≤ (splitStr row '\t').length) :
    ∃ o, parseRow headers row = .ok o :=
  buildRow_ok _ headers 0 [] (by omega)

theorem parseRow_err (headers : List String) (row : String)
    (h : (splitStr row '\t').length < headers.length) :
    parseRow headers row = .error .typeError :=
  buildRow_err _ headers 0 [] (splitStr_length_pos row _) (by omega) (by omega)

theorem jsError_eq (e : JsError) : e = .typeError := by cases e; rfl

theorem mapM_err {α β : Type} (f : α → Except JsError β) (l : List α)
    (h : ∃ x ∈ l, ∀ y, f x ≠ .ok y) : l.mapM f = .error .typeError := by
  induction l with
  | nil => obtain ⟨x, hx, _⟩ := h; cases hx
  | cons a t ih =>
    obtain ⟨x, hx, hfx⟩ := h
    rw [List.mapM_cons]
    cases hfa : f a with
    | error e =>
      cases e
      rfl
    | ok v =>
      rcases List.mem_cons.mp hx with rfl | hxt
      · exact absurd hfa (hfx v)
      · rw [ih ⟨x, hxt, hfx⟩]
        rfl

theorem mapM_ok {α β : Type} (f : α → Except JsError β) (l : List α)
    (h : ∀ x ∈ l, ∃ y, f x = .ok y) :
    ∃ out, l.mapM f = .ok out ∧ out.length = l.length := by
  induction l with
  | nil => exact ⟨[], rfl, rfl⟩
  | cons a t ih =>
    obtain ⟨y, hy⟩ := h a (List.mem_cons_self a t)
    obtain ⟨out, hout, hlen⟩ := ih (fun x hx => h x (List.mem_cons_of_mem a hx))
    refine ⟨y :: out, ?_, by simp [hlen]⟩
    rw [List.mapM_cons, hy, hout]
    rfl

theorem zCorrect_length (l : List RowObj) : (zCorrect l).length = l.length := by
  unfold zCorrect
  split
  · exact List.length_map l _
  · rfl


/-- Batch whose first samples average `accelZ > 0`. -/
def csvT4 : String := "timestamp\taccelZ\n1000\t1\n2000\t2"

/-- Expected ingestion result for `csvT4`: every `accelZ` negated. -/
def csvOut4 : List RowObj :=
  [[("timestamp", some 1000), ("accelZ", some (-1)), ("relativeTime", some 0)],
   [("timestamp", some 2000), ("accelZ", some (-2)), ("relativeTime", some 1)]]

/-- Batch with a non-numeric `accelZ` field in the first data row. -/
def csvBad : String := "timestamp\taccelZ\n1000\tabc\n2000\t-1"

/-- What the source actually produces for `csvBad`: the batch is ACCEPTED,
with NaN where `abc` failed to parse. -/
def csvBadOut : List RowObj :=
  [[("timestamp", some 1000), ("accelZ", none), ("relativeTime", some 0)],
   [("timestamp", some 2000), ("accelZ", some (-1)), ("relativeTime", some 1)]]

/-- Batch whose first data row has fewer tab-separated fields than the
header. -/
def csvShort : String := "timestamp\taccelZ\n1000\n2000\t-1"

/-! ## Store-semantics lemmas (aliasing and in-place mutation) -/

noncomputable section

open Real

theorem stripFused_compEmit (st : CompState) (p : SensorDataPoint) :
    stripFused (compEmit st p) = stripFused p := rfl

theorem calculateDt_stripFused (p a b : SensorDataPoint) (h : stripFused a = stripFused b) :
    calculateDt p (some a) = calculateDt p (some b) := by
  have ht0 : (stripFused a).timestamp = (stripFused b).timestamp := congrArg _ h
  have hr0 : (stripFused a).relativeTime = (stripFused b).relativeTime := congrArg _ h
  have ht : a.timestamp = b.timestamp := ht0
  have hr : a.relativeTime = b.relativeTime := hr0
  simp only [calculateDt]
  rw [ht, hr]

theorem compUpd_congr_prev (alpha : ℝ) (st : CompState) (p a b : SensorDataPoint)
    (h : stripFused a = stripFused b) :
    compUpd alpha st (some a) p = compUpd alpha st (some b) p := by
  unfold compUpd
  rw [calculateDt_stripFused p a b h]

theorem getD_set_self (l : List SensorDataPoint) (i : ℕ) (v : SensorDataPoint)
    (h : i < l.length) : (l.set i v).getD i default = v := by
  rw [List.getD_eq_getElem?_getD, List.getElem?_set_self h]
  rfl

theorem getD_set_ne (l : List SensorDataPoint) (i j : ℕ) (v : SensorDataPoint)
    (h : i ≠ j) : (l.set i v).getD j default = l.getD j default := by
  rw [List.getD_eq_getElem?_getD, List.getElem?_set_ne h, ← List.getD_eq_getElem?_getD]

theorem runStoreComp_spec (alpha : ℝ) :
    ∀ (refs : List ℕ) (store : List SensorDataPoint) (st : CompState)
      (prevRef : Option ℕ) (prevVal : Option SensorDataPoint),
      refs.Nodup →
      (∀ r ∈ refs, r < store.length) →
      ((prevRef.map fun pr => stripFused (store.getD pr default)) = prevVal.map stripFused) →
      (runStoreComp alpha st prevRef refs store).length = store.length ∧
      (∀ k, k ∉ refs → (runStoreComp alpha st prevRef refs store).getD k default
          = store.getD k default) ∧
      (∀ j, j < refs.length →
        (runStoreComp alpha st prevRef refs store).getD (refs.getD j 0) default
          = (runFrom (compUpd alpha) compEmit st prevVal
              (refs.map fun r => store.getD r default)).getD j default) := by
  intro refs
  induction refs with
  | nil =>
    intro store st prevRef prevVal _ _ _
    exact ⟨rfl, fun _ _ => rfl, fun j hj => absurd hj (by simp)⟩
  | cons r rest ih =>
    intro store st prevRef prevVal hnd hlen hmatch
    obtain ⟨hnr, hndr⟩ := List.nodup_cons.mp hnd
    have hrlen : r < store.length := hlen r (List.mem_cons_self r rest)
    have hupd : compUpd alpha st (prevRef.map fun pr => store.getD pr default)
        (store.getD r default) = compUpd alpha st prevVal (store.getD r default) := by
      cases prevRef with
      | none =>
        cases prevVal with
        | none => rfl
        | some v => cases hmatch
      | some pr =>
        cases prevVal with
        | none => cases hmatch
        | some v => exact compUpd_congr_prev alpha st _ _ _ (Option.some.inj hmatch)
    have hstep : runStoreComp alpha st prevRef (r :: rest) store
        = runStoreComp alpha (compUpd alpha st prevVal (store.getD r default)) (some r) rest
            (store.set r (compEmit (compUpd alpha st prevVal (store.getD r default))
              (store.getD r default))) := by
      show runStoreComp alpha
          (compUpd alpha st (prevRef.map fun pr => store.getD pr default) (store.getD r default))
          (some r) rest
          (store.set r (compEmit
            (compUpd alpha st (prevRef.map fun pr => store.getD pr default) (store.getD r default))
            (store.getD r default))) = _
      rw [hupd]
    set p := store.getD r default with hp
    set st' := compUpd alpha st prevVal p with hst'
    set store₁ := store.set r (compEmit st' p) with hstore₁
    have hs₁len : store₁.length = store.length := List.length_set store r _
    have hs₁r : store₁.getD r default = compEmit st' p := getD_set_self store r _ hrlen
    have hs₁k : ∀ k, k ≠ r → store₁.getD k default = store.getD k default :=
      fun k hk => getD_set_ne store r k _ (fun he => hk he.symm)
    obtain ⟨ih1, ih2, ih3⟩ := ih store₁ st' (some r) (some p) hndr
      (fun r' hr' => hs₁len ▸ hlen r' (List.mem_cons_of_mem r hr'))
      (by
        show some (stripFused (store₁.getD r default)) = some (stripFused p)
        rw [hs₁r, stripFused_compEmit])
    have hsamples : rest.map (fun r' => store₁.getD r' default)
        = rest.map (fun r' => store.getD r' default) :=
      List.map_congr_left (fun r' hr' => hs₁k r' (fun he => hnr (he ▸ hr')))
    refine ⟨?_, ?_, ?_⟩
    · rw [hstep, ih1, hs₁len]
    · intro k hk
      have hk1 : k ≠ r := fun he => hk (he ▸ List.mem_cons_self r rest)
      have hk2 : k ∉ rest := fun hm => hk (List.mem_cons_of_mem r hm)
      rw [hstep, ih2 k hk2, hs₁k k hk1]
    · intro j hj
      cases j with
      | zero =>
        have : (r :: rest).getD 0 0 = r := rfl
        rw [hstep, this, ih2 r (fun hm => hnr hm), hs₁r]
        show compEmit st' p
            = (runFrom (compUpd alpha) compEmit st prevVal
                ((r :: rest).map fun r' => store.getD r' default)).getD 0 default
        show compEmit st' p
            = (compEmit (compUpd alpha st prevVal p) p
                :: runFrom (compUpd alpha) compEmit (compUpd alpha st prevVal p) (some p)
                    (rest.map fun r' => store.getD r' default)).getD 0 default
        rfl
      | succ n =>
        have hn : n < rest.length := by
          have := hj
          simp at this
          omega
        have hgd : (r :: rest).getD (n + 1) 0 = rest.getD n 0 := rfl
        rw [hstep, hgd]
        have := ih3 n hn
        rw [hsamples] at this
        rw [this]
        show (runFrom (compUpd alpha) compEmit st' (some p)
            (rest.map fun r' => store.getD r' default)).getD n default
          = (runFrom (compUpd alpha) compEmit st prevVal
              ((r :: rest).map fun r' => store.getD r' default)).getD (n + 1) default
        rfl

end

/-! ## Claims -/

noncomputable section

open Real

/-- C2, counterexample: the original claim quantifies over every input and
every strategy, but under IEEE float semantics (poison model) a single sample
with a zero-norm accelerometer vector poisons the very first Madgwick
quaternion update (`0/0` in the unguarded accelerometer normalization at the
source's lines 1547–1550), and the NaN reaches the fused yaw output — the
wrap `while` loops compare against NaN, which is false, and pass it through —
so the yaw at index 0 is NaN, not a number in `[-180, 180]`. -/
theorem C2_counterexample :
    ((applyMadgwickFilterP [zeroAccelP]).get? 0).map (fun e => e.2.yaw) = some none := by
  simp [applyMadgwickFilterP, pMadgwickRun, pMadgwickStep, pMadgwickEuler, zeroAccelP,
    pQuatId, calculateDt, pSqrt, pDiv, pAdd, pSub, pMul, pNeg, pAtan2, pPitch, pWrap,
    Real.sqrt_zero]

/-- C2 (amended): in the exact-real embedding — where the source's unguarded
divisions collapse to Lean's `x / 0 = 0` junk value, as disclosed at
`madgwickStepWithDt` — every fused output sample of every strategy has its yaw
in `[-180, 180]`, and for the Kalman strategy roll and pitch are in
`[-180, 180]` as well; moreover the improved complementary filter's yaw
survives even IEEE semantics (poison model): it is never NaN and stays in
`[-180, 180]`, since no division feeds its yaw path.  Under IEEE semantics the
Madgwick leg of the original claim is false: see the counterexample. -/
theorem C2_angle_ranges (alpha alpha' beta : ℝ) (data : List SensorDataPoint) (i : ℕ)
    (out : SensorDataPoint) :
    (((applyComplementaryFilter data alpha).get? i = some out ∨
      (applyImprovedComplementaryFilter data alpha').get? i = some out ∨
      (applyMadgwickFilter data beta).get? i = some out) →
      ∀ y, out.yaw = some y → -180 ≤ y ∧ y ≤ 180) ∧
    ((applyKalmanFilter data).get? i = some out →
      (∀ y, out.yaw = some y → -180 ≤ y ∧ y ≤ 180) ∧
      (∀ r, out.roll = some r → -180 ≤ r ∧ r ≤ 180) ∧
      (∀ q, out.pitch = some q → -180 ≤ q ∧ q ≤ 180)) ∧
    (∀ pout : PImpOut, (applyImprovedComplementaryFilterP data alpha').get? i = some pout →
      ∃ y, pout.yaw = some y ∧ -180 ≤ y ∧ y ≤ 180) := by
  refine ⟨?_, ?_, ?_⟩
  · rintro (hg | hg | hg) y hy
    · cases data with
      | nil => cases hg
      | cons f rest =>
        exact runFrom_comp_yaw alpha (f :: rest) none (compInit f)
          (by show (-180:ℝ) ≤ 0; norm_num) (by show (0:ℝ) ≤ 180; norm_num)
          out (List.get?_mem hg) y hy
    · cases data with
      | nil => cases hg
      | cons f rest =>
        exact runFrom_imp_yaw alpha' (f :: rest) none (impInit f)
          (by show (-180:ℝ) ≤ 0; norm_num) (by show (0:ℝ) ≤ 180; norm_num)
          out (List.get?_mem hg) y hy
    · cases data with
      | nil => cases hg
      | cons f rest =>
        exact runFrom_madgwick_yaw beta (f :: rest) none quatId out (List.get?_mem hg) y hy
  · intro hg
    cases data with
    | nil => cases hg
    | cons f rest =>
      exact runFrom_kalman_bounds (f :: rest) none (kalmanInit f) (kalmanInit_bounds f)
        out (List.get?_mem hg)
  · intro pout hg
    cases data with
    | nil => cases hg
    | cons f rest =>
      exact pImpRun_yaw alpha' (f :: rest) (pImpInit f) none 0 rfl (by norm_num)
        (by norm_num) pout (List.get?_mem hg)

/-- C2 witness: the amended range theorem applied to a concrete one-sample run
of the complementary filter, whose output yaw is 0. -/
theorem C2_witness : -180 ≤ (0:ℝ) ∧ (0:ℝ) ≤ 180 :=
  (C2_angle_ranges 0.98 0.98 0.1 [restP] 0 (restAnnot restP)).1
    (Or.inl (by
      rw [applyComplementaryFilter_rest 0.98 [restP]
        (fun p hp => by rw [List.mem_singleton.mp hp]; exact isRest_restP)]
      rfl))
    0 rfl

/-- C3: at every step `i > 0` of every strategy, the integration time step is
`min(dt, 0.5)`, which is at most 0.5 s (and nonnegative when sample times are
in order); in particular a sample whose relative time jumped 10 s ahead is
integrated with exactly 0.5 s, and the complementary yaw change before
wrapping is `gyroZ·d` with `|gyroZ·d| ≤ |gyroZ|·0.5`. -/
theorem C3_dt_clamp (alpha beta : ℝ) (st : CompState) (ist : ImpState) (kst : KState)
    (q : Quat) (pr p : SensorDataPoint) (h : 0 ≤ calculateDt p (some pr)) :
    ∃ d, 0 ≤ d ∧ d ≤ 0.5 ∧
      (calculateDt p (some pr) = 10 → d = 0.5) ∧
      compUpd alpha st (some pr) p = compStepWithDt alpha st p d ∧
      impUpd alpha ist (some pr) p
        = impStepWithDt alpha ist (some pr) p (calculateDt p (some pr)) d ∧
      kalmanUpd kst (some pr) p = kalmanStepWithDt kst p d ∧
      madgwickUpd beta q (some pr) p = madgwickStepWithDt beta q p d ∧
      ∃ δ, |δ| ≤ |p.gyroZ| * 0.5 ∧ (compUpd alpha st (some pr) p).yaw = wrap180 (st.yaw + δ) := by
  refine ⟨min (calculateDt p (some pr)) 0.5, le_min h (by norm_num), min_le_right _ _,
    fun h10 => by rw [h10]; exact min_eq_right (by norm_num), rfl, rfl, rfl, rfl, ?_⟩
  refine ⟨p.gyroZ * min (calculateDt p (some pr)) 0.5, ?_, rfl⟩
  rw [abs_mul]
  apply mul_le_mul_of_nonneg_left _ (abs_nonneg _)
  rw [abs_of_nonneg (le_min h (by norm_num))]
  exact min_le_right _ _

/-- C3 witness: the clamp theorem at the concrete 10-second jump from `restP`
to `p10`. -/
theorem C3_witness :
    ∃ d, 0 ≤ d ∧ d ≤ 0.5 ∧
      (calculateDt p10 (some restP) = 10 → d = 0.5) ∧
      compUpd 0.98 restComp (some restP) p10 = compStepWithDt 0.98 restComp p10 d ∧
      impUpd 0.98 (impInit restP) (some restP) p10
        = impStepWithDt 0.98 (impInit restP) (some restP) p10 (calculateDt p10 (some restP)) d ∧
      kalmanUpd (kalmanInit restP) (some restP) p10 = kalmanStepWithDt (kalmanInit restP) p10 d ∧
      madgwickUpd 0.1 quatId (some restP) p10 = madgwickStepWithDt 0.1 quatId p10 d ∧
      ∃ δ, |δ| ≤ |p10.gyroZ| * 0.5 ∧
        (compUpd 0.98 restComp (some restP) p10).yaw = wrap180 (restComp.yaw + δ) :=
  C3_dt_clamp 0.98 0.1 restComp (impInit restP) (kalmanInit restP) quatId restP p10
    (by norm_num [calculateDt, p10, restP])

/-- C7: all four strategies are strictly causal: if two input sequences agree
up to index `i` (samples after `i` altered or removed at will), the fused
output at index `i` is identical. -/
theorem C7_causality (alpha alpha' beta : ℝ) (data data' : List SensorDataPoint) (i : ℕ)
    (h1 : i < data.length) (h2 : i < data'.length)
    (ht : data.take (i + 1) = data'.take (i + 1)) :
    (applyComplementaryFilter data alpha).get? i
      = (applyComplementaryFilter data' alpha).get? i ∧
    (applyImprovedComplementaryFilter data alpha').get? i
      = (applyImprovedComplementaryFilter data' alpha').get? i ∧
    (applyKalmanFilter data).get? i = (applyKalmanFilter data').get? i ∧
    (applyMadgwickFilter data beta).get? i = (applyMadgwickFilter data' beta).get? i :=
  ⟨applyShape_get?_congr (compUpd alpha) compEmit compInit data data' i h1 h2 ht,
   applyShape_get?_congr (impUpd alpha') impEmit impInit data data' i h1 h2 ht,
   applyShape_get?_congr kalmanUpd kalmanEmit kalmanInit data data' i h1 h2 ht,
   applyShape_get?_congr (madgwickUpd beta) madgwickEmit (fun _ => quatId) data data' i h1 h2 ht⟩

/-- C7 witness: output index 0 agrees between `[restP, p10]` and `[restP]`
for all four strategies. -/
theorem C7_witness :
    (applyComplementaryFilter [restP, p10] 0.98).get? 0
      = (applyComplementaryFilter [restP] 0.98).get? 0 ∧
    (applyImprovedComplementaryFilter [restP, p10] 0.98).get? 0
      = (applyImprovedComplementaryFilter [restP] 0.98).get? 0 ∧
    (applyKalmanFilter [restP, p10]).get? 0 = (applyKalmanFilter [restP]).get? 0 ∧
    (applyMadgwickFilter [restP, p10] 0.1).get? 0 = (applyMadgwickFilter [restP] 0.1).get? 0 :=
  C7_causality 0.98 0.98 0.1 [restP, p10] [restP] 0 (by norm_num) (by norm_num) rfl

theorem impInit_restP_roll : (impInit restP).roll = 180 := by
  show atan2 (compensateAcceleration restP.accelX restP.accelY restP.accelZ
      0 0 0 0 0 0 sensorPositionVector).y
    (compensateAcceleration restP.accelX restP.accelY restP.accelZ
      0 0 0 0 0 0 sensorPositionVector).z * (180 / π) = 180
  have hy : (compensateAcceleration restP.accelX restP.accelY restP.accelZ
      0 0 0 0 0 0 sensorPositionVector).y = 0 := by
    unfold compensateAcceleration sensorPositionVector restP
    norm_num
  have hz : (compensateAcceleration restP.accelX restP.accelY restP.accelZ
      0 0 0 0 0 0 sensorPositionVector).z = -1 := by
    unfold compensateAcceleration sensorPositionVector restP
    norm_num
  rw [hy, hz, atan2_zero_neg (by norm_num), mul_comm, div_mul_cancel₀ _ pi_ne_zero]

/-- C10: the complementary variants wrap only yaw.  Two samples — at rest,
then a 100000 deg/s roll rate over a 1 s gap — drive the plain complementary
filter's roll to exactly 49180 degrees (far outside `[-180, 180]`), and the
improved variant's roll above 180 as well. -/
theorem C10_roll_not_wrapped :
    ((applyComplementaryFilter [restP, bigGyroP] 0.98).get? 1).bind SensorDataPoint.roll
      = some 49180 ∧ (180:ℝ) < 49180 ∧
    (∃ r, ((applyImprovedComplementaryFilter [restP, bigGyroP] 0.98).get? 1).bind
        SensorDataPoint.roll = some r ∧ 180 < r) := by
  refine ⟨?_, by norm_num, ?_⟩
  · have heval :
        ((applyComplementaryFilter [restP, bigGyroP] 0.98).get? 1).bind SensorDataPoint.roll
        = some ((compStepWithDt 0.98 (compInit restP) bigGyroP
            (min (calculateDt bigGyroP (some restP)) 0.5)).roll) := rfl
    rw [heval]
    show some (0.98 * ((compInit restP).roll
        + bigGyroP.gyroX * min (calculateDt bigGyroP (some restP)) 0.5)
        + (1 - 0.98) * accelRollOf bigGyroP) = some 49180
    rw [compInit_rest isRest_restP, accelRollOf_restAccel rfl rfl,
      show calculateDt bigGyroP (some restP) = 1 from by show (1:ℝ) - 0 = 1; norm_num,
      show bigGyroP.gyroX = 100000 from rfl]
    norm_num [restComp, min_def]
  · obtain ⟨ar, har, _, heq⟩ :=
      impUpd_roll_some 0.98 (impUpd 0.98 (impInit restP) none restP) restP bigGyroP
    refine ⟨_, rfl, ?_⟩
    rw [heq,
      show (impUpd 0.98 (impInit restP) none restP).roll = (impInit restP).roll from rfl,
      impInit_restP_roll,
      show calculateDt bigGyroP (some restP) = 1 from by show (1:ℝ) - 0 = 1; norm_num,
      show bigGyroP.gyroX = 100000 from rfl,
      show min (1:ℝ) 0.5 = 0.5 from by norm_num [min_def]]
    nlinarith [har]

/-- C5: the cited code paths have NO guard — under IEEE float semantics
(poison model) a zero-norm accelerometer sample poisons the Madgwick fused
output with NaN at the very first index, and a zero `dt` between two samples
with differing gyro readings poisons the improved complementary filter's roll
state and its stored compensated acceleration with NaN/Infinity at the second
index.  This contradicts the claim (and the spec's stated guard requirement):
the code divides unconditionally and the NaN reaches the running state and the
fused output. -/
theorem C5_no_nan_guards :
    ((applyMadgwickFilterP [zeroAccelP]).get? 0).map (fun e => e.2.roll) = some none ∧
    ((applyImprovedComplementaryFilterP [dtz1, dtz2]).get? 1).map PImpOut.roll = some none ∧
    ((applyImprovedComplementaryFilterP [dtz1, dtz2]).get? 1).map PImpOut.compAccelX
      = some none := by
  refine ⟨?_, ?_, ?_⟩
  · simp [applyMadgwickFilterP, pMadgwickRun, pMadgwickStep, pMadgwickEuler, zeroAccelP,
      pQuatId, calculateDt, pSqrt, pDiv, pAdd, pSub, pMul, pNeg, pAtan2, pPitch, pWrap,
      Real.sqrt_zero]
  · simp [applyImprovedComplementaryFilterP, pImpRun, pImpStep, pImpInit, pImpEmit,
      pCompensate, dtz1, dtz2, calculateDt, sensorPositionVector, pSqrt, pDiv, pAdd, pSub,
      pMul, pNeg, pAtan2, pPitch, pWrap]
  · simp [applyImprovedComplementaryFilterP, pImpRun, pImpStep, pImpInit, pImpEmit,
      pCompensate, dtz1, dtz2, calculateDt, sensorPositionVector, pSqrt, pDiv, pAdd, pSub,
      pMul, pNeg, pAtan2, pPitch, pWrap]

/-- C8, counterexample: under IEEE float semantics (poison model) a single
sample with a zero-norm accelerometer makes the very first Madgwick update
divide by zero: every component of the quaternion state becomes NaN, so its
norm is NaN — not within `1e-6` of 1 — and the fused roll output is NaN
too. -/
theorem C8_counterexample :
    ((applyMadgwickFilterP [zeroAccelP]).get? 0).map (fun e => e.1.q0) = some none ∧
    ((applyMadgwickFilterP [zeroAccelP]).get? 0).map (fun e => e.2.roll) = some none := by
  constructor <;>
    simp [applyMadgwickFilterP, pMadgwickRun, pMadgwickStep, pMadgwickEuler, zeroAccelP,
      pQuatId, calculateDt, pSqrt, pDiv, pAdd, pSub, pMul, pNeg, pAtan2, pPitch, pWrap,
      Real.sqrt_zero]

/-- C8 (amended): in exact real arithmetic, and for sample sequences whose
`calculateDt` steps are nonnegative (the data model guarantees nondecreasing
relative time), every per-sample Madgwick update leaves the quaternion state
with squared norm exactly 1 — hence `‖q‖` is within `1e-6` of 1 as the claim
states; under IEEE floats the claim fails on degenerate input (see the
counterexample). -/
theorem C8_quat_unit_norm (data : List SensorDataPoint) (h : dtOrdered data) :
    ∀ s ∈ madgwickStates data, Quat.normSq s = 1 ∧
      |Real.sqrt s.normSq - 1| ≤ 1e-6 := by
  intro s hs
  have h1 : Quat.normSq s = 1 :=
    runStates_madgwick_normSq data none quatId
      (by unfold Quat.normSq quatId; norm_num) h s hs
  refine ⟨h1, ?_⟩
  rw [h1, Real.sqrt_one]
  norm_num

/-- C8 witness: the amended theorem applied to the one-sample at-rest run,
whose state trace is `[quatId]`. -/
theorem C8_witness : Quat.normSq quatId = 1 ∧ |Real.sqrt quatId.normSq - 1| ≤ 1e-6 :=
  C8_quat_unit_norm [restP] (List.chain'_singleton restP) quatId
    (by
      rw [show madgwickStates [restP] = [quatId] from
        runStates_madgwick_rest 0.1 [restP] none
          (fun p hp => by rw [List.mem_singleton.mp hp]; exact isRest_restP)]
      exact List.mem_singleton_self quatId)

/-- C4: after batch ingestion, if the mean `accelZ` of the first
`min(20, N)` parsed samples is a number greater than 0, every sample's
`accelZ` is negated relative to its parsed value; if it is less than 0, the
sequence is returned unchanged. -/
theorem C4_z_correction (text : String) (out : List RowObj)
    (h : processData text = .ok out) :
    ∃ p, parsePhase text = .ok p ∧ out = zCorrect p ∧
      (∀ m : ℚ, avgAccelZ p = some m → 0 < m →
        out = p.map (fun r => setField r "accelZ" (jsNeg (getField r "accelZ")))) ∧
      (∀ m : ℚ, avgAccelZ p = some m → m < 0 → out = p) := by
  unfold processData at h
  cases hp : parsePhase text with
  | error e => rw [hp] at h; cases h
  | ok p =>
    rw [hp] at h
    have hout : out = zCorrect p := by
      have h2 : Except.ok (zCorrect p) = (Except.ok out : Except JsError (List RowObj)) := h
      cases h2
      rfl
    refine ⟨p, rfl, hout, ?_, ?_⟩
    · intro m hm hpos
      rw [hout]
      unfold zCorrect
      rw [hm]
      simp [jsGtZero, hpos]
    · intro m hm hneg
      rw [hout]
      unfold zCorrect
      rw [hm]
      simp [jsGtZero, not_lt.mpr (le_of_lt hneg)]

/-- C6 (amended): a data row with fewer tab-separated fields than the header
makes `processData` throw (an uncaught `TypeError` from
`values[index].replace` on `undefined` — not a structured
`ParseError::MalformedRow`), rejecting the whole batch with no partial
result; but a PRESENT field that cannot be parsed as a number does NOT make
ingestion fail: as long as every data row has at least as many fields as the
header (and there is at least one data row), `processData` succeeds, parsing
unparseable fields as NaN. -/
theorem C6_malformed_rows (text : String) :
    (match (splitStr text '\n').filter (fun r => 0 < (trimStr r).length) with
    | [] => processData text = .error .typeError
    | headerRow :: dataRows =>
      ((∃ row ∈ dataRows,
          (splitStr row '\t').length
            < ((splitStr headerRow '\t').map trimStr).length) →
        processData text = .error .typeError) ∧
      (dataRows ≠ [] →
        (∀ row ∈ dataRows,
          ((splitStr headerRow '\t').map trimStr).length
            ≤ (splitStr row '\t').length) →
        ∃ out, processData text = .ok out ∧ out.length = dataRows.length)) := by
  cases hrows : (splitStr text '\n').filter (fun r => 0 < (trimStr r).length) with
  | nil =>
    show processData text = .error .typeError
    unfold processData parsePhase
    rw [hrows]
    rfl
  | cons headerRow dataRows =>
    constructor
    · rintro ⟨row, hrow, hlen⟩
      have herr : parseRow ((splitStr headerRow '\t').map trimStr) row
          = .error .typeError := parseRow_err _ _ hlen
      have hmapM : dataRows.mapM (parseRow ((splitStr headerRow '\t').map trimStr))
          = .error .typeError :=
        mapM_err _ _ ⟨row, hrow, fun y hy => by rw [herr] at hy; cases hy⟩
      unfold processData parsePhase
      rw [hrows]
      simp only [hmapM]
      rfl
    · intro hne hall
      obtain ⟨parsed, hparsed, hlen⟩ :=
        mapM_ok _ _ (fun row hrow => parseRow_ok _ _ (hall row hrow))
      cases hpd : parsed with
      | nil =>
        rw [hpd] at hlen
        cases dataRows with
        | nil => exact absurd rfl hne
        | cons a b => simp at hlen
      | cons first restp =>
        rw [hpd] at hparsed
        refine ⟨zCorrect ((first :: restp).map (fun row =>
          setField row "relativeTime"
            ((jsSub (getField row "timestamp") (getField first "timestamp")).map (· / 1000)))),
          ?_, ?_⟩
        · unfold processData parsePhase
          rw [hrows]
          simp only [hparsed]
          rfl
        · rw [zCorrect_length, List.length_map, ← hpd, hlen]

/-- C4 witness: the Z-correction theorem applied to a concrete two-row batch
whose mean `accelZ` is `3/2 > 0`. -/
theorem C4_witness :
    ∃ p, parsePhase csvT4 = .ok p ∧ csvOut4 = zCorrect p ∧
      (∀ m : ℚ, avgAccelZ p = some m → 0 < m →
        csvOut4 = p.map (fun r => setField r "accelZ" (jsNeg (getField r "accelZ")))) ∧
      (∀ m : ℚ, avgAccelZ p = some m → m < 0 → csvOut4 = p) :=
  C4_z_correction csvT4 csvOut4 (by with_unfolding_all rfl)

/-- C6, counterexample: `csvBad` contains the unparseable numeric field
`abc`, yet `processData` returns the full batch (with NaN in that field)
instead of failing — refuting the claim that any unparseable field rejects
the batch. -/
theorem C6_counterexample :
    parseFloatJS "abc" = none ∧ processData csvBad = Except.ok csvBadOut :=
  ⟨by with_unfolding_all rfl, by with_unfolding_all rfl⟩

/-- C6 witness: the amended theorem applied to a concrete batch whose first
data row has one field against a two-field header. -/
theorem C6_witness : processData csvShort = Except.error JsError.typeError :=
  (C6_malformed_rows csvShort).1 ⟨"1000", by decide, by decide⟩


/-- C9, counterexample: running the complementary filter in store semantics on
a one-object heap writes the fused angles through to the input sample object:
after the run the object the caller passed in has `roll = some 180` where it
had `none` — the input sample is mutated, refuting the claim. -/
theorem C9_counterexample :
    (((applyComplementaryFilterStore [restP] [0] 0.98).1.getD 0 default).roll = some 180) ∧
    restP.roll = none ∧
    (applyComplementaryFilterStore [restP] [0] 0.98).1 ≠ [restP] := by
  have hval : ((applyComplementaryFilterStore [restP] [0] 0.98).1.getD 0 default).roll
      = some (compInit restP).roll := rfl
  have h180 : ((applyComplementaryFilterStore [restP] [0] 0.98).1.getD 0 default).roll
      = some 180 := by
    rw [hval, compInit_rest isRest_restP]
    rfl
  refine ⟨h180, rfl, fun h => ?_⟩
  have := congrArg (fun l => (l.getD 0 default).roll) h
  simp only at this
  rw [h180] at this
  cases this

/-- C9 (amended): `const result = [...data]` copies only the array, so the
returned array holds the very same sample objects, and the filter writes the
fused fields in place on them.  Precisely: for a heap and an array of distinct
valid references, the store run returns the same reference array, leaves
unreferenced objects untouched, and overwrites each referenced object with
exactly the value-semantics fused output for its position — i.e. the input
samples ARE mutated (their fused fields written), and nothing else changes. -/
theorem C9_store_mutation (alpha : ℝ) (store : List SensorDataPoint) (refs : List ℕ)
    (hnd : refs.Nodup) (hlen : ∀ r ∈ refs, r < store.length) :
    (applyComplementaryFilterStore store refs alpha).2 = refs ∧
    (∀ k, k ∉ refs →
      (applyComplementaryFilterStore store refs alpha).1.getD k default
        = store.getD k default) ∧
    (∀ j, j < refs.length →
      (applyComplementaryFilterStore store refs alpha).1.getD (refs.getD j 0) default
        = (applyComplementaryFilter (refs.map fun r => store.getD r default) alpha).getD
            j default) := by
  cases refs with
  | nil => exact ⟨rfl, fun _ _ => rfl, fun j hj => absurd hj (by simp)⟩
  | cons r rest =>
    obtain ⟨h1, h2, h3⟩ := runStoreComp_spec alpha (r :: rest) store
      (compInit (store.getD r default)) none none hnd hlen rfl
    exact ⟨rfl, fun k hk => h2 k hk, fun j hj => h3 j hj⟩

/-- C9 witness: the mutation theorem at a concrete two-object heap. -/
theorem C9_witness :
    (applyComplementaryFilterStore [restP, p10] [0, 1] 0.98).2 = [0, 1] ∧
    (∀ k, k ∉ ([0, 1] : List ℕ) →
      (applyComplementaryFilterStore [restP, p10] [0, 1] 0.98).1.getD k default
        = ([restP, p10] : List SensorDataPoint).getD k default) ∧
    (∀ j, j < ([0, 1] : List ℕ).length →
      (applyComplementaryFilterStore [restP, p10] [0, 1] 0.98).1.getD
          (([0, 1] : List ℕ).getD j 0) default
        = (applyComplementaryFilter (([0, 1] : List ℕ).map
            fun r => ([restP, p10] : List SensorDataPoint).getD r default) 0.98).getD
              j default) :=
  C9_store_mutation 0.98 [restP, p10] [0, 1] (by decide) (by decide)

/-- C1, counterexample: on 50 identical at-rest samples
(`accel=[0,0,-1]`, `gyro=[0,0,0]`) the complementary strategy's roll output at
the last index is exactly 180 degrees — the accel-derived roll at rest is
`atan2(0,-1)·180/π = 180` — which is not within 0.1 degrees of 0, so the claim
fails for the complementary strategy. -/
theorem C1_counterexample :
    ((applyComplementaryFilter atRest50 0.98).get? 49).bind SensorDataPoint.roll = some 180 ∧
    ¬ |(180 : ℝ) - 0| ≤ 0.1 := by
  constructor
  · rw [applyComplementaryFilter_rest 0.98 atRest50 atRest50_rest]
    rfl
  · rw [sub_zero]
    norm_num

/-- C1 (amended): on any sequence of at-rest samples
(`accel=[0,0,-1]`, `gyro=[0,0,0]`, arbitrary times) the complementary filter
(any `alpha`) and the Kalman filter hold pitch and yaw at exactly 0 as the
claim expects, but roll at exactly 180 degrees — the code's
`atan2(ay,az)` convention puts the at-rest attitude at roll 180, not 0; the
Madgwick filter, in exact real arithmetic with division-by-zero-as-zero,
leaves the identity quaternion fixed and outputs roll=pitch=yaw=0 (in IEEE
arithmetic its zero objective-function gradient is normalized as 0/0 and
poisons the state with NaN instead). -/
theorem C1_static_rest (alpha beta : ℝ) (data : List SensorDataPoint)
    (h : ∀ p ∈ data, isRest p) :
    applyComplementaryFilter data alpha = data.map restAnnot ∧
    applyKalmanFilter data = data.map restAnnot ∧
    applyMadgwickFilter data beta = data.map zeroAnnot :=
  ⟨applyComplementaryFilter_rest alpha data h, applyKalmanFilter_rest data h,
    applyMadgwickFilter_rest data beta h⟩

/-- C1 witness: the amended theorem applied to the concrete 50-sample at-rest
sequence at the default gains. -/
theorem C1_witness :
    applyComplementaryFilter atRest50 0.98 = atRest50.map restAnnot ∧
    applyKalmanFilter atRest50 = atRest50.map restAnnot ∧
    applyMadgwickFilter atRest50 0.1 = atRest50.map zeroAnnot :=
  C1_static_rest 0.98 0.1 atRest50 atRest50_rest

end

end RocketTelemetry
